import Mathlib

/-!
Verification of the numeric core of the `figures` crate: the bounded
rational type `Fraction`, the normalized `Angle` type, and the fixed-point
scaled integer units `Px`, `UPx` and `Lp`.

Machine integers are modelled as `Int`/`Nat`.  Rust's `/` and `%` on signed
integers truncate toward zero, which is `Int.tdiv`/`Int.tmod`.  Wrapping
two's-complement arithmetic is modelled explicitly (`wrap32`) at the places
where an overflow is reachable; saturating operations are modelled by
explicit clamping.  Loops are modelled as fuel-based structural recursions,
with the fuel chosen large enough that it is never exhausted on the
reachable inputs (proved where a claim needs it).
-/

/-- Two's complement wrap-around of an integer into the signed 32-bit range,
mirroring release-mode overflow semantics of Rust `i32` arithmetic. -/
def wrap32 (x : Int) : Int :=
  (x + 2 ^ 31) % 2 ^ 32 - 2 ^ 31

/-- Rust `i16::saturating_neg`. -/
def satNeg16 (x : Int) : Int :=
  if x = -32768 then 32767 else -x

/-- Rust `i32::saturating_mul`. -/
def satMul32 (a b : Int) : Int :=
  max (-(2 ^ 31)) (min (2 ^ 31 - 1) (a * b))

/-- Rust `i32::saturating_div`: truncating division saturating only the
`MIN / -1` overflow; it panics on a zero divisor, so callers model that
case separately. -/
def satDiv32 (a b : Int) : Int :=
  if a = -(2 ^ 31) ∧ b = -1 then 2 ^ 31 - 1 else a.tdiv b

/-- Rust `wrapping_abs` for a signed `w`-bit integer, as used by the `Abs`
trait implementations for `i16` and `i32` in `fraction.rs`. -/
def wrapAbs (w : Nat) (x : Int) : Int :=
  if x = -(2 ^ (w - 1)) then x else |x|

set_option maxHeartbeats 3200000 in
/-- Modelled from the spec: the file `primes.rs` (module `primes`) is not
part of the provided sources.  The spec describes reduction by "trial
division against an ascending list of small primes" bounded by the 16-bit
operands, and the crate's own doctest (`1/32719 + 1/32749 = 2/32749`)
requires the list to reach the largest primes representable in `i16`.
`PRIMES` is therefore the ascending list of all primes that fit in a
nonnegative `i16`, i.e. all primes up to 32767. -/
def PRIMES : List Int := [
  2, 3, 5, 7, 11, 13, 17, 19, 23, 29, 31, 37, 41, 43, 47, 53, 59, 61, 67, 71,
  73, 79, 83, 89, 97, 101, 103, 107, 109, 113, 127, 131, 137, 139, 149, 151, 157, 163, 167, 173,
  179, 181, 191, 193, 197, 199, 211, 223, 227, 229, 233, 239, 241, 251, 257, 263, 269, 271, 277, 281,
  283, 293, 307, 311, 313, 317, 331, 337, 347, 349, 353, 359, 367, 373, 379, 383, 389, 397, 401, 409,
  419, 421, 431, 433, 439, 443, 449, 457, 461, 463, 467, 479, 487, 491, 499, 503, 509, 521, 523, 541,
  547, 557, 563, 569, 571, 577, 587, 593, 599, 601, 607, 613, 617, 619, 631, 641, 643, 647, 653, 659,
  661, 673, 677, 683, 691, 701, 709, 719, 727, 733, 739, 743, 751, 757, 761, 769, 773, 787, 797, 809,
  811, 821, 823, 827, 829, 839, 853, 857, 859, 863, 877, 881, 883, 887, 907, 911, 919, 929, 937, 941,
  947, 953, 967, 971, 977, 983, 991, 997, 1009, 1013, 1019, 1021, 1031, 1033, 1039, 1049, 1051, 1061, 1063, 1069,
  1087, 1091, 1093, 1097, 1103, 1109, 1117, 1123, 1129, 1151, 1153, 1163, 1171, 1181, 1187, 1193, 1201, 1213, 1217, 1223,
  1229, 1231, 1237, 1249, 1259, 1277, 1279, 1283, 1289, 1291, 1297, 1301, 1303, 1307, 1319, 1321, 1327, 1361, 1367, 1373,
  1381, 1399, 1409, 1423, 1427, 1429, 1433, 1439, 1447, 1451, 1453, 1459, 1471, 1481, 1483, 1487, 1489, 1493, 1499, 1511,
  1523, 1531, 1543, 1549, 1553, 1559, 1567, 1571, 1579, 1583, 1597, 1601, 1607, 1609, 1613, 1619, 1621, 1627, 1637, 1657,
  1663, 1667, 1669, 1693, 1697, 1699, 1709, 1721, 1723, 1733, 1741, 1747, 1753, 1759, 1777, 1783, 1787, 1789, 1801, 1811,
  1823, 1831, 1847, 1861, 1867, 1871, 1873, 1877, 1879, 1889, 1901, 1907, 1913, 1931, 1933, 1949, 1951, 1973, 1979, 1987,
  1993, 1997, 1999, 2003, 2011, 2017, 2027, 2029, 2039, 2053, 2063, 2069, 2081, 2083, 2087, 2089, 2099, 2111, 2113, 2129,
  2131, 2137, 2141, 2143, 2153, 2161, 2179, 2203, 2207, 2213, 2221, 2237, 2239, 2243, 2251, 2267, 2269, 2273, 2281, 2287,
  2293, 2297, 2309, 2311, 2333, 2339, 2341, 2347, 2351, 2357, 2371, 2377, 2381, 2383, 2389, 2393, 2399, 2411, 2417, 2423,
  2437, 2441, 2447, 2459, 2467, 2473, 2477, 2503, 2521, 2531, 2539, 2543, 2549, 2551, 2557, 2579, 2591, 2593, 2609, 2617,
  2621, 2633, 2647, 2657, 2659, 2663, 2671, 2677, 2683, 2687, 2689, 2693, 2699, 2707, 2711, 2713, 2719, 2729, 2731, 2741,
  2749, 2753, 2767, 2777, 2789, 2791, 2797, 2801, 2803, 2819, 2833, 2837, 2843, 2851, 2857, 2861, 2879, 2887, 2897, 2903,
  2909, 2917, 2927, 2939, 2953, 2957, 2963, 2969, 2971, 2999, 3001, 3011, 3019, 3023, 3037, 3041, 3049, 3061, 3067, 3079,
  3083, 3089, 3109, 3119, 3121, 3137, 3163, 3167, 3169, 3181, 3187, 3191, 3203, 3209, 3217, 3221, 3229, 3251, 3253, 3257,
  3259, 3271, 3299, 3301, 3307, 3313, 3319, 3323, 3329, 3331, 3343, 3347, 3359, 3361, 3371, 3373, 3389, 3391, 3407, 3413,
  3433, 3449, 3457, 3461, 3463, 3467, 3469, 3491, 3499, 3511, 3517, 3527, 3529, 3533, 3539, 3541, 3547, 3557, 3559, 3571,
  3581, 3583, 3593, 3607, 3613, 3617, 3623, 3631, 3637, 3643, 3659, 3671, 3673, 3677, 3691, 3697, 3701, 3709, 3719, 3727,
  3733, 3739, 3761, 3767, 3769, 3779, 3793, 3797, 3803, 3821, 3823, 3833, 3847, 3851, 3853, 3863, 3877, 3881, 3889, 3907,
  3911, 3917, 3919, 3923, 3929, 3931, 3943, 3947, 3967, 3989, 4001, 4003, 4007, 4013, 4019, 4021, 4027, 4049, 4051, 4057,
  4073, 4079, 4091, 4093, 4099, 4111, 4127, 4129, 4133, 4139, 4153, 4157, 4159, 4177, 4201, 4211, 4217, 4219, 4229, 4231,
  4241, 4243, 4253, 4259, 4261, 4271, 4273, 4283, 4289, 4297, 4327, 4337, 4339, 4349, 4357, 4363, 4373, 4391, 4397, 4409,
  4421, 4423, 4441, 4447, 4451, 4457, 4463, 4481, 4483, 4493, 4507, 4513, 4517, 4519, 4523, 4547, 4549, 4561, 4567, 4583,
  4591, 4597, 4603, 4621, 4637, 4639, 4643, 4649, 4651, 4657, 4663, 4673, 4679, 4691, 4703, 4721, 4723, 4729, 4733, 4751,
  4759, 4783, 4787, 4789, 4793, 4799, 4801, 4813, 4817, 4831, 4861, 4871, 4877, 4889, 4903, 4909, 4919, 4931, 4933, 4937,
  4943, 4951, 4957, 4967, 4969, 4973, 4987, 4993, 4999, 5003, 5009, 5011, 5021, 5023, 5039, 5051, 5059, 5077, 5081, 5087,
  5099, 5101, 5107, 5113, 5119, 5147, 5153, 5167, 5171, 5179, 5189, 5197, 5209, 5227, 5231, 5233, 5237, 5261, 5273, 5279,
  5281, 5297, 5303, 5309, 5323, 5333, 5347, 5351, 5381, 5387, 5393, 5399, 5407, 5413, 5417, 5419, 5431, 5437, 5441, 5443,
  5449, 5471, 5477, 5479, 5483, 5501, 5503, 5507, 5519, 5521, 5527, 5531, 5557, 5563, 5569, 5573, 5581, 5591, 5623, 5639,
  5641, 5647, 5651, 5653, 5657, 5659, 5669, 5683, 5689, 5693, 5701, 5711, 5717, 5737, 5741, 5743, 5749, 5779, 5783, 5791,
  5801, 5807, 5813, 5821, 5827, 5839, 5843, 5849, 5851, 5857, 5861, 5867, 5869, 5879, 5881, 5897, 5903, 5923, 5927, 5939,
  5953, 5981, 5987, 6007, 6011, 6029, 6037, 6043, 6047, 6053, 6067, 6073, 6079, 6089, 6091, 6101, 6113, 6121, 6131, 6133,
  6143, 6151, 6163, 6173, 6197, 6199, 6203, 6211, 6217, 6221, 6229, 6247, 6257, 6263, 6269, 6271, 6277, 6287, 6299, 6301,
  6311, 6317, 6323, 6329, 6337, 6343, 6353, 6359, 6361, 6367, 6373, 6379, 6389, 6397, 6421, 6427, 6449, 6451, 6469, 6473,
  6481, 6491, 6521, 6529, 6547, 6551, 6553, 6563, 6569, 6571, 6577, 6581, 6599, 6607, 6619, 6637, 6653, 6659, 6661, 6673,
  6679, 6689, 6691, 6701, 6703, 6709, 6719, 6733, 6737, 6761, 6763, 6779, 6781, 6791, 6793, 6803, 6823, 6827, 6829, 6833,
  6841, 6857, 6863, 6869, 6871, 6883, 6899, 6907, 6911, 6917, 6947, 6949, 6959, 6961, 6967, 6971, 6977, 6983, 6991, 6997,
  7001, 7013, 7019, 7027, 7039, 7043, 7057, 7069, 7079, 7103, 7109, 7121, 7127, 7129, 7151, 7159, 7177, 7187, 7193, 7207,
  7211, 7213, 7219, 7229, 7237, 7243, 7247, 7253, 7283, 7297, 7307, 7309, 7321, 7331, 7333, 7349, 7351, 7369, 7393, 7411,
  7417, 7433, 7451, 7457, 7459, 7477, 7481, 7487, 7489, 7499, 7507, 7517, 7523, 7529, 7537, 7541, 7547, 7549, 7559, 7561,
  7573, 7577, 7583, 7589, 7591, 7603, 7607, 7621, 7639, 7643, 7649, 7669, 7673, 7681, 7687, 7691, 7699, 7703, 7717, 7723,
  7727, 7741, 7753, 7757, 7759, 7789, 7793, 7817, 7823, 7829, 7841, 7853, 7867, 7873, 7877, 7879, 7883, 7901, 7907, 7919,
  7927, 7933, 7937, 7949, 7951, 7963, 7993, 8009, 8011, 8017, 8039, 8053, 8059, 8069, 8081, 8087, 8089, 8093, 8101, 8111,
  8117, 8123, 8147, 8161, 8167, 8171, 8179, 8191, 8209, 8219, 8221, 8231, 8233, 8237, 8243, 8263, 8269, 8273, 8287, 8291,
  8293, 8297, 8311, 8317, 8329, 8353, 8363, 8369, 8377, 8387, 8389, 8419, 8423, 8429, 8431, 8443, 8447, 8461, 8467, 8501,
  8513, 8521, 8527, 8537, 8539, 8543, 8563, 8573, 8581, 8597, 8599, 8609, 8623, 8627, 8629, 8641, 8647, 8663, 8669, 8677,
  8681, 8689, 8693, 8699, 8707, 8713, 8719, 8731, 8737, 8741, 8747, 8753, 8761, 8779, 8783, 8803, 8807, 8819, 8821, 8831,
  8837, 8839, 8849, 8861, 8863, 8867, 8887, 8893, 8923, 8929, 8933, 8941, 8951, 8963, 8969, 8971, 8999, 9001, 9007, 9011,
  9013, 9029, 9041, 9043, 9049, 9059, 9067, 9091, 9103, 9109, 9127, 9133, 9137, 9151, 9157, 9161, 9173, 9181, 9187, 9199,
  9203, 9209, 9221, 9227, 9239, 9241, 9257, 9277, 9281, 9283, 9293, 9311, 9319, 9323, 9337, 9341, 9343, 9349, 9371, 9377,
  9391, 9397, 9403, 9413, 9419, 9421, 9431, 9433, 9437, 9439, 9461, 9463, 9467, 9473, 9479, 9491, 9497, 9511, 9521, 9533,
  9539, 9547, 9551, 9587, 9601, 9613, 9619, 9623, 9629, 9631, 9643, 9649, 9661, 9677, 9679, 9689, 9697, 9719, 9721, 9733,
  9739, 9743, 9749, 9767, 9769, 9781, 9787, 9791, 9803, 9811, 9817, 9829, 9833, 9839, 9851, 9857, 9859, 9871, 9883, 9887,
  9901, 9907, 9923, 9929, 9931, 9941, 9949, 9967, 9973, 10007, 10009, 10037, 10039, 10061, 10067, 10069, 10079, 10091, 10093, 10099,
  10103, 10111, 10133, 10139, 10141, 10151, 10159, 10163, 10169, 10177, 10181, 10193, 10211, 10223, 10243, 10247, 10253, 10259, 10267, 10271,
  10273, 10289, 10301, 10303, 10313, 10321, 10331, 10333, 10337, 10343, 10357, 10369, 10391, 10399, 10427, 10429, 10433, 10453, 10457, 10459,
  10463, 10477, 10487, 10499, 10501, 10513, 10529, 10531, 10559, 10567, 10589, 10597, 10601, 10607, 10613, 10627, 10631, 10639, 10651, 10657,
  10663, 10667, 10687, 10691, 10709, 10711, 10723, 10729, 10733, 10739, 10753, 10771, 10781, 10789, 10799, 10831, 10837, 10847, 10853, 10859,
  10861, 10867, 10883, 10889, 10891, 10903, 10909, 10937, 10939, 10949, 10957, 10973, 10979, 10987, 10993, 11003, 11027, 11047, 11057, 11059,
  11069, 11071, 11083, 11087, 11093, 11113, 11117, 11119, 11131, 11149, 11159, 11161, 11171, 11173, 11177, 11197, 11213, 11239, 11243, 11251,
  11257, 11261, 11273, 11279, 11287, 11299, 11311, 11317, 11321, 11329, 11351, 11353, 11369, 11383, 11393, 11399, 11411, 11423, 11437, 11443,
  11447, 11467, 11471, 11483, 11489, 11491, 11497, 11503, 11519, 11527, 11549, 11551, 11579, 11587, 11593, 11597, 11617, 11621, 11633, 11657,
  11677, 11681, 11689, 11699, 11701, 11717, 11719, 11731, 11743, 11777, 11779, 11783, 11789, 11801, 11807, 11813, 11821, 11827, 11831, 11833,
  11839, 11863, 11867, 11887, 11897, 11903, 11909, 11923, 11927, 11933, 11939, 11941, 11953, 11959, 11969, 11971, 11981, 11987, 12007, 12011,
  12037, 12041, 12043, 12049, 12071, 12073, 12097, 12101, 12107, 12109, 12113, 12119, 12143, 12149, 12157, 12161, 12163, 12197, 12203, 12211,
  12227, 12239, 12241, 12251, 12253, 12263, 12269, 12277, 12281, 12289, 12301, 12323, 12329, 12343, 12347, 12373, 12377, 12379, 12391, 12401,
  12409, 12413, 12421, 12433, 12437, 12451, 12457, 12473, 12479, 12487, 12491, 12497, 12503, 12511, 12517, 12527, 12539, 12541, 12547, 12553,
  12569, 12577, 12583, 12589, 12601, 12611, 12613, 12619, 12637, 12641, 12647, 12653, 12659, 12671, 12689, 12697, 12703, 12713, 12721, 12739,
  12743, 12757, 12763, 12781, 12791, 12799, 12809, 12821, 12823, 12829, 12841, 12853, 12889, 12893, 12899, 12907, 12911, 12917, 12919, 12923,
  12941, 12953, 12959, 12967, 12973, 12979, 12983, 13001, 13003, 13007, 13009, 13033, 13037, 13043, 13049, 13063, 13093, 13099, 13103, 13109,
  13121, 13127, 13147, 13151, 13159, 13163, 13171, 13177, 13183, 13187, 13217, 13219, 13229, 13241, 13249, 13259, 13267, 13291, 13297, 13309,
  13313, 13327, 13331, 13337, 13339, 13367, 13381, 13397, 13399, 13411, 13417, 13421, 13441, 13451, 13457, 13463, 13469, 13477, 13487, 13499,
  13513, 13523, 13537, 13553, 13567, 13577, 13591, 13597, 13613, 13619, 13627, 13633, 13649, 13669, 13679, 13681, 13687, 13691, 13693, 13697,
  13709, 13711, 13721, 13723, 13729, 13751, 13757, 13759, 13763, 13781, 13789, 13799, 13807, 13829, 13831, 13841, 13859, 13873, 13877, 13879,
  13883, 13901, 13903, 13907, 13913, 13921, 13931, 13933, 13963, 13967, 13997, 13999, 14009, 14011, 14029, 14033, 14051, 14057, 14071, 14081,
  14083, 14087, 14107, 14143, 14149, 14153, 14159, 14173, 14177, 14197, 14207, 14221, 14243, 14249, 14251, 14281, 14293, 14303, 14321, 14323,
  14327, 14341, 14347, 14369, 14387, 14389, 14401, 14407, 14411, 14419, 14423, 14431, 14437, 14447, 14449, 14461, 14479, 14489, 14503, 14519,
  14533, 14537, 14543, 14549, 14551, 14557, 14561, 14563, 14591, 14593, 14621, 14627, 14629, 14633, 14639, 14653, 14657, 14669, 14683, 14699,
  14713, 14717, 14723, 14731, 14737, 14741, 14747, 14753, 14759, 14767, 14771, 14779, 14783, 14797, 14813, 14821, 14827, 14831, 14843, 14851,
  14867, 14869, 14879, 14887, 14891, 14897, 14923, 14929, 14939, 14947, 14951, 14957, 14969, 14983, 15013, 15017, 15031, 15053, 15061, 15073,
  15077, 15083, 15091, 15101, 15107, 15121, 15131, 15137, 15139, 15149, 15161, 15173, 15187, 15193, 15199, 15217, 15227, 15233, 15241, 15259,
  15263, 15269, 15271, 15277, 15287, 15289, 15299, 15307, 15313, 15319, 15329, 15331, 15349, 15359, 15361, 15373, 15377, 15383, 15391, 15401,
  15413, 15427, 15439, 15443, 15451, 15461, 15467, 15473, 15493, 15497, 15511, 15527, 15541, 15551, 15559, 15569, 15581, 15583, 15601, 15607,
  15619, 15629, 15641, 15643, 15647, 15649, 15661, 15667, 15671, 15679, 15683, 15727, 15731, 15733, 15737, 15739, 15749, 15761, 15767, 15773,
  15787, 15791, 15797, 15803, 15809, 15817, 15823, 15859, 15877, 15881, 15887, 15889, 15901, 15907, 15913, 15919, 15923, 15937, 15959, 15971,
  15973, 15991, 16001, 16007, 16033, 16057, 16061, 16063, 16067, 16069, 16073, 16087, 16091, 16097, 16103, 16111, 16127, 16139, 16141, 16183,
  16187, 16189, 16193, 16217, 16223, 16229, 16231, 16249, 16253, 16267, 16273, 16301, 16319, 16333, 16339, 16349, 16361, 16363, 16369, 16381,
  16411, 16417, 16421, 16427, 16433, 16447, 16451, 16453, 16477, 16481, 16487, 16493, 16519, 16529, 16547, 16553, 16561, 16567, 16573, 16603,
  16607, 16619, 16631, 16633, 16649, 16651, 16657, 16661, 16673, 16691, 16693, 16699, 16703, 16729, 16741, 16747, 16759, 16763, 16787, 16811,
  16823, 16829, 16831, 16843, 16871, 16879, 16883, 16889, 16901, 16903, 16921, 16927, 16931, 16937, 16943, 16963, 16979, 16981, 16987, 16993,
  17011, 17021, 17027, 17029, 17033, 17041, 17047, 17053, 17077, 17093, 17099, 17107, 17117, 17123, 17137, 17159, 17167, 17183, 17189, 17191,
  17203, 17207, 17209, 17231, 17239, 17257, 17291, 17293, 17299, 17317, 17321, 17327, 17333, 17341, 17351, 17359, 17377, 17383, 17387, 17389,
  17393, 17401, 17417, 17419, 17431, 17443, 17449, 17467, 17471, 17477, 17483, 17489, 17491, 17497, 17509, 17519, 17539, 17551, 17569, 17573,
  17579, 17581, 17597, 17599, 17609, 17623, 17627, 17657, 17659, 17669, 17681, 17683, 17707, 17713, 17729, 17737, 17747, 17749, 17761, 17783,
  17789, 17791, 17807, 17827, 17837, 17839, 17851, 17863, 17881, 17891, 17903, 17909, 17911, 17921, 17923, 17929, 17939, 17957, 17959, 17971,
  17977, 17981, 17987, 17989, 18013, 18041, 18043, 18047, 18049, 18059, 18061, 18077, 18089, 18097, 18119, 18121, 18127, 18131, 18133, 18143,
  18149, 18169, 18181, 18191, 18199, 18211, 18217, 18223, 18229, 18233, 18251, 18253, 18257, 18269, 18287, 18289, 18301, 18307, 18311, 18313,
  18329, 18341, 18353, 18367, 18371, 18379, 18397, 18401, 18413, 18427, 18433, 18439, 18443, 18451, 18457, 18461, 18481, 18493, 18503, 18517,
  18521, 18523, 18539, 18541, 18553, 18583, 18587, 18593, 18617, 18637, 18661, 18671, 18679, 18691, 18701, 18713, 18719, 18731, 18743, 18749,
  18757, 18773, 18787, 18793, 18797, 18803, 18839, 18859, 18869, 18899, 18911, 18913, 18917, 18919, 18947, 18959, 18973, 18979, 19001, 19009,
  19013, 19031, 19037, 19051, 19069, 19073, 19079, 19081, 19087, 19121, 19139, 19141, 19157, 19163, 19181, 19183, 19207, 19211, 19213, 19219,
  19231, 19237, 19249, 19259, 19267, 19273, 19289, 19301, 19309, 19319, 19333, 19373, 19379, 19381, 19387, 19391, 19403, 19417, 19421, 19423,
  19427, 19429, 19433, 19441, 19447, 19457, 19463, 19469, 19471, 19477, 19483, 19489, 19501, 19507, 19531, 19541, 19543, 19553, 19559, 19571,
  19577, 19583, 19597, 19603, 19609, 19661, 19681, 19687, 19697, 19699, 19709, 19717, 19727, 19739, 19751, 19753, 19759, 19763, 19777, 19793,
  19801, 19813, 19819, 19841, 19843, 19853, 19861, 19867, 19889, 19891, 19913, 19919, 19927, 19937, 19949, 19961, 19963, 19973, 19979, 19991,
  19993, 19997, 20011, 20021, 20023, 20029, 20047, 20051, 20063, 20071, 20089, 20101, 20107, 20113, 20117, 20123, 20129, 20143, 20147, 20149,
  20161, 20173, 20177, 20183, 20201, 20219, 20231, 20233, 20249, 20261, 20269, 20287, 20297, 20323, 20327, 20333, 20341, 20347, 20353, 20357,
  20359, 20369, 20389, 20393, 20399, 20407, 20411, 20431, 20441, 20443, 20477, 20479, 20483, 20507, 20509, 20521, 20533, 20543, 20549, 20551,
  20563, 20593, 20599, 20611, 20627, 20639, 20641, 20663, 20681, 20693, 20707, 20717, 20719, 20731, 20743, 20747, 20749, 20753, 20759, 20771,
  20773, 20789, 20807, 20809, 20849, 20857, 20873, 20879, 20887, 20897, 20899, 20903, 20921, 20929, 20939, 20947, 20959, 20963, 20981, 20983,
  21001, 21011, 21013, 21017, 21019, 21023, 21031, 21059, 21061, 21067, 21089, 21101, 21107, 21121, 21139, 21143, 21149, 21157, 21163, 21169,
  21179, 21187, 21191, 21193, 21211, 21221, 21227, 21247, 21269, 21277, 21283, 21313, 21317, 21319, 21323, 21341, 21347, 21377, 21379, 21383,
  21391, 21397, 21401, 21407, 21419, 21433, 21467, 21481, 21487, 21491, 21493, 21499, 21503, 21517, 21521, 21523, 21529, 21557, 21559, 21563,
  21569, 21577, 21587, 21589, 21599, 21601, 21611, 21613, 21617, 21647, 21649, 21661, 21673, 21683, 21701, 21713, 21727, 21737, 21739, 21751,
  21757, 21767, 21773, 21787, 21799, 21803, 21817, 21821, 21839, 21841, 21851, 21859, 21863, 21871, 21881, 21893, 21911, 21929, 21937, 21943,
  21961, 21977, 21991, 21997, 22003, 22013, 22027, 22031, 22037, 22039, 22051, 22063, 22067, 22073, 22079, 22091, 22093, 22109, 22111, 22123,
  22129, 22133, 22147, 22153, 22157, 22159, 22171, 22189, 22193, 22229, 22247, 22259, 22271, 22273, 22277, 22279, 22283, 22291, 22303, 22307,
  22343, 22349, 22367, 22369, 22381, 22391, 22397, 22409, 22433, 22441, 22447, 22453, 22469, 22481, 22483, 22501, 22511, 22531, 22541, 22543,
  22549, 22567, 22571, 22573, 22613, 22619, 22621, 22637, 22639, 22643, 22651, 22669, 22679, 22691, 22697, 22699, 22709, 22717, 22721, 22727,
  22739, 22741, 22751, 22769, 22777, 22783, 22787, 22807, 22811, 22817, 22853, 22859, 22861, 22871, 22877, 22901, 22907, 22921, 22937, 22943,
  22961, 22963, 22973, 22993, 23003, 23011, 23017, 23021, 23027, 23029, 23039, 23041, 23053, 23057, 23059, 23063, 23071, 23081, 23087, 23099,
  23117, 23131, 23143, 23159, 23167, 23173, 23189, 23197, 23201, 23203, 23209, 23227, 23251, 23269, 23279, 23291, 23293, 23297, 23311, 23321,
  23327, 23333, 23339, 23357, 23369, 23371, 23399, 23417, 23431, 23447, 23459, 23473, 23497, 23509, 23531, 23537, 23539, 23549, 23557, 23561,
  23563, 23567, 23581, 23593, 23599, 23603, 23609, 23623, 23627, 23629, 23633, 23663, 23669, 23671, 23677, 23687, 23689, 23719, 23741, 23743,
  23747, 23753, 23761, 23767, 23773, 23789, 23801, 23813, 23819, 23827, 23831, 23833, 23857, 23869, 23873, 23879, 23887, 23893, 23899, 23909,
  23911, 23917, 23929, 23957, 23971, 23977, 23981, 23993, 24001, 24007, 24019, 24023, 24029, 24043, 24049, 24061, 24071, 24077, 24083, 24091,
  24097, 24103, 24107, 24109, 24113, 24121, 24133, 24137, 24151, 24169, 24179, 24181, 24197, 24203, 24223, 24229, 24239, 24247, 24251, 24281,
  24317, 24329, 24337, 24359, 24371, 24373, 24379, 24391, 24407, 24413, 24419, 24421, 24439, 24443, 24469, 24473, 24481, 24499, 24509, 24517,
  24527, 24533, 24547, 24551, 24571, 24593, 24611, 24623, 24631, 24659, 24671, 24677, 24683, 24691, 24697, 24709, 24733, 24749, 24763, 24767,
  24781, 24793, 24799, 24809, 24821, 24841, 24847, 24851, 24859, 24877, 24889, 24907, 24917, 24919, 24923, 24943, 24953, 24967, 24971, 24977,
  24979, 24989, 25013, 25031, 25033, 25037, 25057, 25073, 25087, 25097, 25111, 25117, 25121, 25127, 25147, 25153, 25163, 25169, 25171, 25183,
  25189, 25219, 25229, 25237, 25243, 25247, 25253, 25261, 25301, 25303, 25307, 25309, 25321, 25339, 25343, 25349, 25357, 25367, 25373, 25391,
  25409, 25411, 25423, 25439, 25447, 25453, 25457, 25463, 25469, 25471, 25523, 25537, 25541, 25561, 25577, 25579, 25583, 25589, 25601, 25603,
  25609, 25621, 25633, 25639, 25643, 25657, 25667, 25673, 25679, 25693, 25703, 25717, 25733, 25741, 25747, 25759, 25763, 25771, 25793, 25799,
  25801, 25819, 25841, 25847, 25849, 25867, 25873, 25889, 25903, 25913, 25919, 25931, 25933, 25939, 25943, 25951, 25969, 25981, 25997, 25999,
  26003, 26017, 26021, 26029, 26041, 26053, 26083, 26099, 26107, 26111, 26113, 26119, 26141, 26153, 26161, 26171, 26177, 26183, 26189, 26203,
  26209, 26227, 26237, 26249, 26251, 26261, 26263, 26267, 26293, 26297, 26309, 26317, 26321, 26339, 26347, 26357, 26371, 26387, 26393, 26399,
  26407, 26417, 26423, 26431, 26437, 26449, 26459, 26479, 26489, 26497, 26501, 26513, 26539, 26557, 26561, 26573, 26591, 26597, 26627, 26633,
  26641, 26647, 26669, 26681, 26683, 26687, 26693, 26699, 26701, 26711, 26713, 26717, 26723, 26729, 26731, 26737, 26759, 26777, 26783, 26801,
  26813, 26821, 26833, 26839, 26849, 26861, 26863, 26879, 26881, 26891, 26893, 26903, 26921, 26927, 26947, 26951, 26953, 26959, 26981, 26987,
  26993, 27011, 27017, 27031, 27043, 27059, 27061, 27067, 27073, 27077, 27091, 27103, 27107, 27109, 27127, 27143, 27179, 27191, 27197, 27211,
  27239, 27241, 27253, 27259, 27271, 27277, 27281, 27283, 27299, 27329, 27337, 27361, 27367, 27397, 27407, 27409, 27427, 27431, 27437, 27449,
  27457, 27479, 27481, 27487, 27509, 27527, 27529, 27539, 27541, 27551, 27581, 27583, 27611, 27617, 27631, 27647, 27653, 27673, 27689, 27691,
  27697, 27701, 27733, 27737, 27739, 27743, 27749, 27751, 27763, 27767, 27773, 27779, 27791, 27793, 27799, 27803, 27809, 27817, 27823, 27827,
  27847, 27851, 27883, 27893, 27901, 27917, 27919, 27941, 27943, 27947, 27953, 27961, 27967, 27983, 27997, 28001, 28019, 28027, 28031, 28051,
  28057, 28069, 28081, 28087, 28097, 28099, 28109, 28111, 28123, 28151, 28163, 28181, 28183, 28201, 28211, 28219, 28229, 28277, 28279, 28283,
  28289, 28297, 28307, 28309, 28319, 28349, 28351, 28387, 28393, 28403, 28409, 28411, 28429, 28433, 28439, 28447, 28463, 28477, 28493, 28499,
  28513, 28517, 28537, 28541, 28547, 28549, 28559, 28571, 28573, 28579, 28591, 28597, 28603, 28607, 28619, 28621, 28627, 28631, 28643, 28649,
  28657, 28661, 28663, 28669, 28687, 28697, 28703, 28711, 28723, 28729, 28751, 28753, 28759, 28771, 28789, 28793, 28807, 28813, 28817, 28837,
  28843, 28859, 28867, 28871, 28879, 28901, 28909, 28921, 28927, 28933, 28949, 28961, 28979, 29009, 29017, 29021, 29023, 29027, 29033, 29059,
  29063, 29077, 29101, 29123, 29129, 29131, 29137, 29147, 29153, 29167, 29173, 29179, 29191, 29201, 29207, 29209, 29221, 29231, 29243, 29251,
  29269, 29287, 29297, 29303, 29311, 29327, 29333, 29339, 29347, 29363, 29383, 29387, 29389, 29399, 29401, 29411, 29423, 29429, 29437, 29443,
  29453, 29473, 29483, 29501, 29527, 29531, 29537, 29567, 29569, 29573, 29581, 29587, 29599, 29611, 29629, 29633, 29641, 29663, 29669, 29671,
  29683, 29717, 29723, 29741, 29753, 29759, 29761, 29789, 29803, 29819, 29833, 29837, 29851, 29863, 29867, 29873, 29879, 29881, 29917, 29921,
  29927, 29947, 29959, 29983, 29989, 30011, 30013, 30029, 30047, 30059, 30071, 30089, 30091, 30097, 30103, 30109, 30113, 30119, 30133, 30137,
  30139, 30161, 30169, 30181, 30187, 30197, 30203, 30211, 30223, 30241, 30253, 30259, 30269, 30271, 30293, 30307, 30313, 30319, 30323, 30341,
  30347, 30367, 30389, 30391, 30403, 30427, 30431, 30449, 30467, 30469, 30491, 30493, 30497, 30509, 30517, 30529, 30539, 30553, 30557, 30559,
  30577, 30593, 30631, 30637, 30643, 30649, 30661, 30671, 30677, 30689, 30697, 30703, 30707, 30713, 30727, 30757, 30763, 30773, 30781, 30803,
  30809, 30817, 30829, 30839, 30841, 30851, 30853, 30859, 30869, 30871, 30881, 30893, 30911, 30931, 30937, 30941, 30949, 30971, 30977, 30983,
  31013, 31019, 31033, 31039, 31051, 31063, 31069, 31079, 31081, 31091, 31121, 31123, 31139, 31147, 31151, 31153, 31159, 31177, 31181, 31183,
  31189, 31193, 31219, 31223, 31231, 31237, 31247, 31249, 31253, 31259, 31267, 31271, 31277, 31307, 31319, 31321, 31327, 31333, 31337, 31357,
  31379, 31387, 31391, 31393, 31397, 31469, 31477, 31481, 31489, 31511, 31513, 31517, 31531, 31541, 31543, 31547, 31567, 31573, 31583, 31601,
  31607, 31627, 31643, 31649, 31657, 31663, 31667, 31687, 31699, 31721, 31723, 31727, 31729, 31741, 31751, 31769, 31771, 31793, 31799, 31817,
  31847, 31849, 31859, 31873, 31883, 31891, 31907, 31957, 31963, 31973, 31981, 31991, 32003, 32009, 32027, 32029, 32051, 32057, 32059, 32063,
  32069, 32077, 32083, 32089, 32099, 32117, 32119, 32141, 32143, 32159, 32173, 32183, 32189, 32191, 32203, 32213, 32233, 32237, 32251, 32257,
  32261, 32297, 32299, 32303, 32309, 32321, 32323, 32327, 32341, 32353, 32359, 32363, 32369, 32371, 32377, 32381, 32401, 32411, 32413, 32423,
  32429, 32441, 32443, 32467, 32479, 32491, 32497, 32503, 32507, 32531, 32533, 32537, 32561, 32563, 32569, 32573, 32579, 32587, 32603, 32609,
  32611, 32621, 32633, 32647, 32653, 32687, 32693, 32707, 32713, 32717, 32719, 32749]

/-- Inner `while` loop of `reduce` in `fraction.rs`: repeatedly divide the
numerator and denominator by `p` while `p` divides both, stopping early when
the denominator reaches 1.  The fuel is chosen by the caller to dominate the
iteration count. -/
def divOut (p : Int) : Nat → Int × Int → Int × Int
  | 0, s => s
  | fuel + 1, (n, d) =>
    if n.tmod p = 0 ∧ d.tmod p = 0 then
      if d.tdiv p = 1 then (n.tdiv p, d.tdiv p)
      else divOut p fuel (n.tdiv p, d.tdiv p)
    else (n, d)

/-- Outer `for prime in PRIMES` loop of `reduce` in `fraction.rs`.  `w` is
the bit width of the integer type the generic `reduce` is instantiated at
(16 from `Fraction::new`, 32 from the widened intermediates), used by the
wrapping `abs` in the break condition. -/
def reduceGo (w : Nat) : List Int → Int × Int → Int × Int
  | [], s => s
  | p :: ps, (n, d) =>
    if p > wrapAbs w n ∨ p > d then (n, d)
    else reduceGo w ps (divOut p (d.natAbs + 1) (n, d))

/-- The free function `reduce` in `fraction.rs`. -/
def reduceCode (w : Nat) (n d : Int) : Int × Int :=
  if n = 0 then (n, 1)
  else if d > 1 then reduceGo w PRIMES (n, d)
  else (n, d)

/-- The `Fraction` struct of `fraction.rs`: an `i16` numerator and an `i16`
denominator. -/
structure Fraction where
  num : Int
  den : Int
deriving DecidableEq, Repr

namespace Fraction

/-- `Fraction::new_whole`. -/
def new_whole (w : Int) : Fraction := ⟨w, 1⟩

/-- `Fraction::new_maybe_reduced`: flips the signs (saturating) when the
denominator is negative. -/
def new_maybe_reduced (n d : Int) : Fraction :=
  if d < 0 then ⟨satNeg16 n, satNeg16 d⟩ else ⟨n, d⟩

/-- `Fraction::new`: clamps the numerator to `-i16::MAX`, normalizes the
sign of the denominator, then reduces. -/
def new (n d : Int) : Fraction :=
  let c := new_maybe_reduced (max n (-32767)) d
  let r := reduceCode 16 c.num c.den
  ⟨r.1, r.2⟩

/-- `Fraction::ONE`. -/
def ONE : Fraction := new_whole 1

/-- `Fraction::ZERO`. -/
def ZERO : Fraction := ⟨0, 1⟩

/-- `Fraction::PI`, the rational approximation 355/113. -/
def PI : Fraction := new_maybe_reduced 355 113

/-- `Fraction::inverse`. -/
def inverse (f : Fraction) : Fraction :=
  if f.num ≥ 0 then ⟨f.den, f.num⟩ else ⟨-f.den, -f.num⟩

/-- `Neg for Fraction`. -/
def neg (f : Fraction) : Fraction := ⟨-f.num, f.den⟩

/-- `Fraction::abs`. -/
def abs (f : Fraction) : Fraction :=
  if f.num ≥ 0 then f else ⟨-f.num, f.den⟩

end Fraction

/-- Fueled ascending trial division, modelled from the spec: the iterator
`FactorsOf` lives in the absent `primes.rs`; per the spec it walks "each
denominator's prime-factor list in ascending order".  `factorsGo fuel c n`
emits the factors of `n` not smaller than `c` in ascending order. -/
def factorsGo : Nat → Nat → Nat → List Nat
  | 0, c, n =>
    if n ≤ 1 then [] else if c * c > n then [n] else []
  | fuel + 1, c, n =>
    if n ≤ 1 then []
    else if c * c > n then [n]
    else
      if n % c = 0 then c :: factorsGo fuel c (n / c)
      else factorsGo fuel (c + 1) n

/-- The ascending prime factorization (with multiplicity) of a denominator,
modelling `FactorsOf::new`. -/
def factorsOf (d : Int) : List Int :=
  (factorsGo (2 * d.natAbs + 2) 2 d.natAbs).map (Nat.cast : Nat → Int)

/-- The widened intermediate `Fraction32` of `fraction.rs`: `i32` numerator
and denominator. -/
structure Fraction32 where
  num : Int
  den : Int
deriving DecidableEq, Repr

/-- The merge loop `LowestCommonDenominator::compute`: walk both factor
lists in ascending order; a factor present on one side only is multiplied
into the other side's numerator and denominator.  The reachable inputs of
the loop keep all products far below the `i32` range (each side is
multiplied by at most the other side's 16-bit denominator), so the
multiplications are modelled exactly. -/
def lcdGo : Nat → List Int → List Int → Fraction32 → Fraction32 → Fraction32 × Fraction32
  | 0, _, _, a, b => (a, b)
  | fuel + 1, af, bf, a, b =>
    match af, bf with
    | [], [] => (a, b)
    | fa :: af2, [] => lcdGo fuel af2 [] a ⟨b.num * fa, b.den * fa⟩
    | [], fb :: bf2 => lcdGo fuel [] bf2 ⟨a.num * fb, a.den * fb⟩ b
    | fa :: af2, fb :: bf2 =>
      if fa < fb then lcdGo fuel af2 (fb :: bf2) a ⟨b.num * fa, b.den * fa⟩
      else if fa = fb then lcdGo fuel af2 bf2 a b
      else lcdGo fuel (fa :: af2) bf2 ⟨a.num * fb, a.den * fb⟩ b

/-- `LowestCommonDenominator::find` on two compact fractions. -/
def lcdFind (a b : Fraction) : Fraction32 × Fraction32 :=
  let af := factorsOf a.den
  let bf := factorsOf b.den
  lcdGo (af.length + bf.length + 1) af bf ⟨a.num, a.den⟩ ⟨b.num, b.den⟩

/-- `LowestCommonDenominator::find32`, with its equal-denominator fast
path. -/
def lcdFind32 (a b : Fraction32) : Fraction32 × Fraction32 :=
  if a.den = b.den then (a, b)
  else
    let af := factorsOf a.den
    let bf := factorsOf b.den
    lcdGo (af.length + bf.length + 1) af bf a b

/-- `Add for Fraction32`. -/
def add32 (a b : Fraction32) : Fraction32 :=
  let p := lcdFind32 a b
  let r := reduceCode 32 (p.1.num + p.2.num) p.1.den
  ⟨r.1, r.2⟩

/-- `Sub for Fraction32`. -/
def sub32 (a b : Fraction32) : Fraction32 :=
  let p := lcdFind32 a b
  let r := reduceCode 32 (p.1.num - p.2.num) p.1.den
  ⟨r.1, r.2⟩

/-- The search loop of `From<Fraction32> for Fraction` on the lossy path:
hunt, over the prime list in descending order, for the prime divisor giving
quotients inside the compact range with the smallest combined remainder.
State is `(best_numerator, best_denominator, best_remainder)`. -/
def huntGo : List Int → Int → Int → Int → Int → Int → Int × Int
  | [], _, _, bn, bd, _ => (bn, bd)
  | p :: ps, n, d, bn, bd, br =>
    if ¬(n ≥ p ∧ d ≥ p) then huntGo ps n d bn bd br
    else
      let nq := n.tdiv p
      if nq > 32767 ∨ nq < -32768 then (bn, bd)
      else if nq < -32767 then (bn, bd)
      else
        let dq := d.tdiv p
        if dq > 32767 ∨ dq < -32768 then (bn, bd)
        else
          let r := n.tmod p + d.tmod p
          if r < br then
            if r ≤ 5 then (nq, dq) else huntGo ps n d nq dq r
          else huntGo ps n d bn bd br

/-- `From<Fraction32> for Fraction`: reduce, keep the exact value when it
fits the compact form, otherwise run the lossy prime hunt. -/
def from32 (f : Fraction32) : Fraction :=
  let r := reduceCode 32 f.num f.den
  if -32768 ≤ r.1 ∧ r.1 ≤ 32767 ∧ -32768 ≤ r.2 ∧ r.2 ≤ 32767 ∧ -32767 ≤ r.1 then
    Fraction.new_maybe_reduced r.1 r.2
  else
    let h := huntGo PRIMES.reverse r.1 r.2 32767 32767 (2 ^ 31 - 1)
    ⟨h.1, h.2⟩

namespace Fraction

/-- `AddAssign for Fraction` (and through it `Add`). -/
def add (a b : Fraction) : Fraction :=
  let p := lcdFind a b
  from32 (add32 p.1 p.2)

/-- `Sub for Fraction`. -/
def sub (a b : Fraction) : Fraction :=
  let p := lcdFind a b
  from32 (sub32 p.1 p.2)

/-- `Mul for Fraction`: widen both products to the 32-bit intermediate and
convert back. -/
def mul (a b : Fraction) : Fraction :=
  from32 ⟨a.num * b.num, a.den * b.den⟩

/-- `Div for Fraction`: multiply by the inverse. -/
def div (a b : Fraction) : Fraction :=
  a.mul b.inverse

/-- `Ord for Fraction`: two fast paths, then comparison at the lowest
common denominator. -/
def cmp (a b : Fraction) : Ordering :=
  if a.den = b.den then compare a.num b.num
  else if a.num = b.num then compare b.den a.den
  else
    let p := lcdFind a b
    compare p.1.num p.2.num

end Fraction

/-- The `Angle` struct: a `Fraction` of degrees. -/
structure Angle where
  frac : Fraction
deriving DecidableEq, Repr

/-- The `while degrees < 0 { degrees += 360 }` loop of `Angle::degrees`. -/
def degreesGoNeg : Nat → Int → Int
  | 0, d => d
  | fuel + 1, d => if d < 0 then degreesGoNeg fuel (d + 360) else d

/-- The `while degrees > 360 { degrees -= 360 }` loop of `Angle::degrees`. -/
def degreesGoPos : Nat → Int → Int
  | 0, d => d
  | fuel + 1, d => if d > 360 then degreesGoPos fuel (d - 360) else d

namespace Angle

/-- `Angle::degrees`: whole-degree constructor with its `const` clamp by
repeated addition/subtraction of 360.  The fuel 200 dominates the at most
92 iterations possible for an `i16` input. -/
def degrees (d : Int) : Angle :=
  ⟨Fraction.new_whole (if d < 0 then degreesGoNeg 200 d else degreesGoPos 200 d)⟩

/-- The `Fraction` 360/1 used by `clamp_to_360`. -/
def THREESIXTY : Fraction := Fraction.new_whole 360

/-- The subtracting branch of `clamp_to_360` (value positive). -/
def clampSubGo : Nat → Fraction → Fraction
  | 0, f => f
  | fuel + 1, f =>
    if f.cmp THREESIXTY = Ordering.gt then clampSubGo fuel (f.sub THREESIXTY) else f

/-- The adding branch of `clamp_to_360` (value negative): add 360 until the
result compares greater than zero. -/
def clampAddGo : Nat → Fraction → Fraction
  | 0, f => f
  | fuel + 1, f =>
    let g := f.add THREESIXTY
    if g.cmp Fraction.ZERO = Ordering.gt then g else clampAddGo fuel g

/-- `Angle::clamp_to_360`. -/
def clampTo360 (f : Fraction) : Fraction :=
  match f.cmp Fraction.ZERO with
  | Ordering.gt => clampSubGo 200 f
  | Ordering.eq => f
  | Ordering.lt => clampAddGo 200 f

/-- `Angle::degrees_fraction`. -/
def degreesFraction (f : Fraction) : Angle :=
  ⟨clampTo360 f⟩

/-- `Angle::radians`: convert to degrees through `Fraction::PI`, then
clamp. -/
def radians (r : Fraction) : Angle :=
  ⟨clampTo360 ((r.div Fraction.PI).mul ⟨180, 1⟩)⟩

/-- `Angle::into_raidans` at `Representation = Fraction` (the `From`
conversion is the identity there). -/
def intoRadians (a : Angle) : Fraction :=
  (a.frac.div ⟨180, 1⟩).mul Fraction.PI

end Angle

/-- `Mul<Fraction> for i32`: multiply (saturating) by the denominator, then
divide by the numerator.  A zero numerator is a Rust division-by-zero panic;
theorems about this operator therefore carry a nonzero-numerator
hypothesis. -/
def i32MulFraction (v : Int) (f : Fraction) : Int :=
  (satMul32 v f.den).tdiv f.num

/-- `Div<Fraction> for i32`: multiply by the inverse fraction. -/
def i32DivFraction (v : Int) (f : Fraction) : Int :=
  i32MulFraction v f.inverse

/-- `Mul<Fraction> for u32`: when both components convert to `u32`,
multiply (saturating) by the numerator and divide by the denominator,
otherwise return 0.  A zero denominator is a Rust division-by-zero panic;
theorems about this operator carry a positive-denominator hypothesis. -/
def u32MulFraction (u : Nat) (f : Fraction) : Nat :=
  if 0 ≤ f.num ∧ 0 ≤ f.den then
    min (2 ^ 32 - 1) (u * f.num.toNat) / f.den.toNat
  else 0

/-- `Div<Fraction> for u32`. -/
def u32DivFraction (u : Nat) (f : Fraction) : Nat :=
  u32MulFraction u f.inverse

/-- The `Px` unit (`i32` at internal scale 4). -/
structure Px where
  raw : Int
deriving DecidableEq, Repr

/-- The `UPx` unit (`u32` at internal scale 4). -/
structure UPx where
  raw : Nat
deriving DecidableEq, Repr

/-- The `Lp` unit (`i32` at internal scale `ARBITRARY_SCALE = 1905`). -/
structure Lp where
  raw : Int
deriving DecidableEq, Repr

namespace Px

/-- `Px::new`: multiply by the scale (wrapping on `i32` overflow). -/
def new (v : Int) : Px := ⟨wrap32 (v * 4)⟩

/-- `Px::get`: `(self.0 + scale/2) / scale` with truncating division. -/
def get (p : Px) : Int := (wrap32 (p.raw + 2)).tdiv 4

/-- `Px::MAX`. -/
def MAX : Px := ⟨2 ^ 31 - 1⟩

/-- `Add for Px`: plain `i32` addition (wrapping on overflow in release
builds; a debug build panics instead). -/
def add (a b : Px) : Px := ⟨wrap32 (a.raw + b.raw)⟩

/-- `Px::saturating_add`. -/
def saturating_add (a b : Px) : Px :=
  ⟨max (-(2 ^ 31)) (min (2 ^ 31 - 1) (a.raw + b.raw))⟩

/-- `Px::saturating_sub`. -/
def saturating_sub (a b : Px) : Px :=
  ⟨max (-(2 ^ 31)) (min (2 ^ 31 - 1) (a.raw - b.raw))⟩

/-- `Px::saturating_mul`: `Self(self.0.saturating_mul(other.0) / 4)` — the
raw product is saturated before the scale is divided back out. -/
def saturating_mul (a b : Px) : Px := ⟨(satMul32 a.raw b.raw).tdiv 4⟩

/-- `Px::saturating_div`: `Self::new(self.0.saturating_div(other.0))` — the
saturated raw quotient is re-scaled through `new`'s plain (wrapping) `* 4`;
`i32::saturating_div` panics on a zero divisor, modelled as `none`. -/
def saturating_div (a b : Px) : Option Px :=
  if b.raw = 0 then none else some (new (satDiv32 a.raw b.raw))

/-- `ScreenScale for Px::into_lp`: `self.0 * ARBITRARY_SCALE_I32 / scale / 4`,
where `/ scale` is `Div<Fraction> for i32`. -/
def intoLp (p : Px) (scale : Fraction) : Lp :=
  ⟨(i32DivFraction (wrap32 (p.raw * 1905)) scale).tdiv 4⟩

end Px

namespace UPx

/-- `UPx::new`. -/
def new (v : Nat) : UPx := ⟨v * 4 % 2 ^ 32⟩

/-- `UPx::get`. -/
def get (u : UPx) : Nat := (u.raw + 2) % 2 ^ 32 / 4

/-- `Add for UPx`: plain `u32` addition (wrapping on overflow in release
builds). -/
def add (a b : UPx) : UPx := ⟨(a.raw + b.raw) % 2 ^ 32⟩

/-- `UPx::saturating_add`. -/
def saturating_add (a b : UPx) : UPx := ⟨min (2 ^ 32 - 1) (a.raw + b.raw)⟩

end UPx

namespace Lp

/-- `Lp::new`. -/
def new (v : Int) : Lp := ⟨wrap32 (v * 1905)⟩

/-- `Lp::get`. -/
def get (l : Lp) : Int := (wrap32 (l.raw + 952)).tdiv 1905

/-- `Lp::inches`: `inches * ARBITRARY_SCALE_I32 * 96`. -/
def inches (n : Int) : Lp := ⟨wrap32 (n * 1905 * 96)⟩

/-- `ScreenScale for Lp::into_px`: `Px(self.0 * 4 * scale / ARBITRARY_SCALE_I32)`,
where `* scale` is `Mul<Fraction> for i32`. -/
def intoPx (l : Lp) (scale : Fraction) : Px :=
  ⟨(i32MulFraction (wrap32 (l.raw * 4)) scale).tdiv 1905⟩

end Lp

/-- The representation invariant of compact fractions: denominator in
`[1, 32767]`, numerator within the `i16` range, and zero stored only as
`0/1`. -/
def FractionInv (f : Fraction) : Prop :=
  1 ≤ f.den ∧ f.den ≤ 32767 ∧ -32767 ≤ f.num ∧ f.num ≤ 32767 ∧
    (f.num = 0 → f.den = 1)


/-! ## Completeness of the modelled prime list

A verified checker: walk all odd numbers from 3 to 32767 against the tail
of `PRIMES`; numbers matching the next list entry are consumed, all others
must exhibit a nontrivial odd factor found by trial division.  Together
with a parity argument for even numbers this shows every prime up to 32767
is in `PRIMES`.  `walkSeg` is the checker over a segment, used to keep each
kernel evaluation shallow. -/

def hasFactorOdd (n : Nat) : Nat → Nat → Bool
  | _, 0 => false
  | c, fuel + 1 =>
    if n < c * c then false
    else if n % c = 0 then true
    else hasFactorOdd n (c + 2) fuel

def oddWalk : Nat → Nat → List Int → Bool
  | 0, _, ps => ps.isEmpty
  | cnt + 1, n, ps =>
    match ps with
    | [] => hasFactorOdd n 3 100 && oddWalk cnt (n + 2) []
    | p :: tl =>
      if p = (n : Int) then oddWalk cnt (n + 2) tl
      else hasFactorOdd n 3 100 && oddWalk cnt (n + 2) (p :: tl)

def walkSeg : Nat → Nat → List Int → Nat → Option Nat
  | 0, _, _, j => some j
  | cnt + 1, n, ps, j =>
    match ps with
    | [] => if hasFactorOdd n 3 100 then walkSeg cnt (n + 2) [] j else none
    | p :: tl =>
      if p = (n : Int) then walkSeg cnt (n + 2) tl (j + 1)
      else if hasFactorOdd n 3 100 then walkSeg cnt (n + 2) (p :: tl) j else none


/-! ## Chunked evaluation of the descending prime hunt

`huntSeg` is a proof device (not part of the source model): it runs the same
steps as `huntGo` over a list segment, returning `some` of the running state
when the segment is consumed without hitting a break, and `none` when the
loop terminated inside the segment.  `huntGo_append_some` lets a long walk
of `huntGo` be evaluated segment by segment, keeping each kernel evaluation
shallow. -/

def huntSeg : List Int → Int → Int → Int → Int → Int → Option (Int × Int × Int)
  | [], _, _, bn, bd, br => some (bn, bd, br)
  | p :: ps, n, d, bn, bd, br =>
    if ¬(n ≥ p ∧ d ≥ p) then huntSeg ps n d bn bd br
    else
      let nq := n.tdiv p
      if nq > 32767 ∨ nq < -32768 then none
      else if nq < -32767 then none
      else
        let dq := d.tdiv p
        if dq > 32767 ∨ dq < -32768 then none
        else
          let r := n.tmod p + d.tmod p
          if r < br then
            if r ≤ 5 then none else huntSeg ps n d nq dq r
          else huntSeg ps n d bn bd br


/-! ## Arithmetic helper lemmas -/

set_option maxRecDepth 1000000 in
theorem PRIMES_all_two_le : (PRIMES.all fun p => decide (2 ≤ p)) = true := by decide

theorem PRIMES_two_le : ∀ p ∈ PRIMES, 2 ≤ p := by
  have h := PRIMES_all_two_le
  rw [List.all_eq_true] at h
  intro p hp
  exact of_decide_eq_true (h p hp)

/-- Specification of the inner divide-out loop: it divides out some power
`p^k` common to numerator and denominator, and stops only when `p` no
longer divides both (or the denominator reached 1). -/
theorem divOut_dvd (p : Int) (hp : 2 ≤ p) :
    ∀ (fuel : Nat) (n d : Int), 1 ≤ d → (d : Int) ≤ (fuel : Int) →
      ∃ k : Nat, (p ^ k ∣ n) ∧ (p ^ k ∣ d) ∧
        divOut p fuel (n, d) = (n / p ^ k, d / p ^ k) ∧
        (¬(p ∣ n / p ^ k ∧ p ∣ d / p ^ k) ∨ d / p ^ k = 1) := by
  intro fuel
  induction fuel with
  | zero =>
    intro n d hd hf
    exfalso
    simp at hf
    omega
  | succ fuel ih =>
    intro n d hd hf
    show ∃ k, _ ∧ _ ∧
      (if n.tmod p = 0 ∧ d.tmod p = 0 then
        if d.tdiv p = 1 then (n.tdiv p, d.tdiv p)
        else divOut p fuel (n.tdiv p, d.tdiv p)
      else (n, d)) = _ ∧ _
    by_cases hc : n.tmod p = 0 ∧ d.tmod p = 0
    · have hpn : p ∣ n := Int.dvd_of_tmod_eq_zero hc.1
      have hpd : p ∣ d := Int.dvd_of_tmod_eq_zero hc.2
      have hp0 : p ≠ 0 := by omega
      have htn : n.tdiv p = n / p := Int.tdiv_eq_ediv_of_dvd hpn
      have htd : d.tdiv p = d / p := Int.tdiv_eq_ediv_of_dvd hpd
      have hd1 : 1 ≤ d / p := by
        rcases hpd with ⟨c, rfl⟩
        rw [Int.mul_ediv_cancel_left _ hp0]
        nlinarith
      have hstep : ∀ m : Int, p ∣ m → ∀ j : Nat, m / p / p ^ j = m / p ^ (j + 1) := by
        intro m hm j
        rcases hm with ⟨c, rfl⟩
        rw [Int.mul_ediv_cancel_left _ hp0,
          show p ^ (j + 1) = p * p ^ j by ring,
          Int.mul_ediv_mul_of_pos _ _ (by omega : (0 : Int) < p)]
      rw [if_pos hc]
      by_cases he : d.tdiv p = 1
      · have he2 : d / p = 1 := by rw [← htd]; exact he
        refine ⟨1, by rwa [pow_one], by rwa [pow_one], ?_, Or.inr (by rw [pow_one]; exact he2)⟩
        rw [if_pos he, htn, htd, pow_one]
      · obtain ⟨k, hk1, hk2, hk3, hk4⟩ := ih (n / p) (d / p) hd1 (by
          rcases hpd with ⟨c, rfl⟩
          rw [Int.mul_ediv_cancel_left _ hp0]
          push_cast at hf ⊢
          nlinarith)
        have eqn : n / p / p ^ k = n / p ^ (k + 1) := hstep n hpn k
        have eqd : d / p / p ^ k = d / p ^ (k + 1) := hstep d hpd k
        refine ⟨k + 1, ?_, ?_, ?_, ?_⟩
        · rcases hpn with ⟨c, rfl⟩
          rw [Int.mul_ediv_cancel_left _ hp0] at hk1
          rw [show p ^ (k + 1) = p * p ^ k by ring]
          exact mul_dvd_mul_left p hk1
        · rcases hpd with ⟨c, rfl⟩
          rw [Int.mul_ediv_cancel_left _ hp0] at hk2
          rw [show p ^ (k + 1) = p * p ^ k by ring]
          exact mul_dvd_mul_left p hk2
        · rw [if_neg he, htn, htd, hk3, eqn, eqd]
        · rw [← eqn, ← eqd]
          exact hk4
    · rw [if_neg hc]
      refine ⟨0, by simp, by simp, by simp, Or.inl ?_⟩
      intro hcon
      rw [pow_zero, Int.ediv_one, Int.ediv_one] at hcon
      exact hc ⟨Int.tmod_eq_zero_of_dvd hcon.1, Int.tmod_eq_zero_of_dvd hcon.2⟩

theorem reduceGo_cons (w : Nat) (p : Int) (ps : List Int) (n d : Int) :
    reduceGo w (p :: ps) (n, d) =
      if p > wrapAbs w n ∨ p > d then (n, d)
      else reduceGo w ps (divOut p (d.natAbs + 1) (n, d)) := rfl

theorem huntGo_cons (p : Int) (ps : List Int) (n d bn bd br : Int) :
    huntGo (p :: ps) n d bn bd br =
      if ¬(n ≥ p ∧ d ≥ p) then huntGo ps n d bn bd br
      else
        if n.tdiv p > 32767 ∨ n.tdiv p < -32768 then (bn, bd)
        else if n.tdiv p < -32767 then (bn, bd)
        else if d.tdiv p > 32767 ∨ d.tdiv p < -32768 then (bn, bd)
        else if n.tmod p + d.tmod p < br then
          if n.tmod p + d.tmod p ≤ 5 then (n.tdiv p, d.tdiv p)
          else huntGo ps n d (n.tdiv p) (d.tdiv p) (n.tmod p + d.tmod p)
        else huntGo ps n d bn bd br := rfl

/-- Basic facts about the outer reduce loop: the denominator stays in
`[1, d]`, the numerator's magnitude never grows, and the numerator is zero
exactly when it started zero. -/
theorem reduceGo_basic (w : Nat) :
    ∀ (L : List Int) (n d : Int), (∀ p ∈ L, 2 ≤ p) → 1 ≤ d →
      1 ≤ (reduceGo w L (n, d)).2 ∧ (reduceGo w L (n, d)).2 ≤ d ∧
        (reduceGo w L (n, d)).1.natAbs ≤ n.natAbs ∧
        ((reduceGo w L (n, d)).1 = 0 ↔ n = 0) := by
  intro L
  induction L with
  | nil =>
    intro n d _ hd
    exact ⟨hd, le_refl d, le_refl _, Iff.rfl⟩
  | cons p ps ih =>
    intro n d hmem hd
    have hp := hmem p (List.mem_cons_self p ps)
    rw [reduceGo_cons]
    by_cases hbr : p > wrapAbs w n ∨ p > d
    · rw [if_pos hbr]
      exact ⟨hd, le_refl d, le_refl _, Iff.rfl⟩
    · rw [if_neg hbr]
      obtain ⟨k, hk1, hk2, hk3, _⟩ :=
        divOut_dvd p hp (d.natAbs + 1) n d hd (by omega)
      rw [hk3]
      have hppos : (0 : Int) < p := by omega
      have hpk0 : (0 : Int) < p ^ k := pow_pos hppos k
      have hd2 : 1 ≤ d / p ^ k := by
        rcases hk2 with ⟨c, rfl⟩
        rw [Int.mul_ediv_cancel_left _ (ne_of_gt hpk0)]
        nlinarith
      have hdle : d / p ^ k ≤ d := Int.ediv_le_self _ (by omega)
      have hnabs : (n / p ^ k).natAbs ≤ n.natAbs := by
        rw [Int.natAbs_ediv _ _ hk1]
        exact Nat.div_le_self _ _
      have hzero : n / p ^ k = 0 ↔ n = 0 := by
        constructor
        · intro h0
          rcases hk1 with ⟨c, rfl⟩
          rw [Int.mul_ediv_cancel_left _ (ne_of_gt hpk0)] at h0
          rw [h0, mul_zero]
        · intro h0
          rw [h0, Int.zero_ediv]
      obtain ⟨a1, a2, a3, a4⟩ :=
        ih (n / p ^ k) (d / p ^ k) (fun q hq => hmem q (List.mem_cons_of_mem _ hq)) hd2
      exact ⟨a1, le_trans a2 hdle, le_trans a3 hnabs, a4.trans hzero⟩

/-- Basic facts about the free function `reduce`. -/
theorem reduceCode_basic (w : Nat) (n d : Int) (hd : 1 ≤ d) :
    1 ≤ (reduceCode w n d).2 ∧ (reduceCode w n d).2 ≤ d ∧
      (reduceCode w n d).1.natAbs ≤ n.natAbs ∧
      ((reduceCode w n d).1 = 0 ↔ n = 0) ∧
      ((reduceCode w n d).1 = 0 → (reduceCode w n d).2 = 1) := by
  unfold reduceCode
  by_cases h0 : n = 0
  · rw [if_pos h0]
    subst h0
    exact ⟨le_refl 1, hd, le_refl _, Iff.rfl, fun _ => rfl⟩
  · rw [if_neg h0]
    by_cases h1 : d > 1
    · rw [if_pos h1]
      obtain ⟨a1, a2, a3, a4⟩ := reduceGo_basic w PRIMES n d PRIMES_two_le hd
      exact ⟨a1, a2, a3, a4, fun hz => absurd (a4.mp hz) h0⟩
    · rw [if_neg h1]
      exact ⟨hd, le_refl d, le_refl _, Iff.rfl, fun hz => absurd hz h0⟩

/-- The descending prime hunt keeps the best quotient pair inside
`[1, 32767] × [1, 32767]`. -/
theorem huntGo_bounds :
    ∀ (L : List Int) (n d bn bd br : Int), (∀ p ∈ L, 2 ≤ p) →
      1 ≤ bn → bn ≤ 32767 → 1 ≤ bd → bd ≤ 32767 →
      1 ≤ (huntGo L n d bn bd br).1 ∧ (huntGo L n d bn bd br).1 ≤ 32767 ∧
        1 ≤ (huntGo L n d bn bd br).2 ∧ (huntGo L n d bn bd br).2 ≤ 32767 := by
  intro L
  induction L with
  | nil =>
    intro n d bn bd br _ h1 h2 h3 h4
    exact ⟨h1, h2, h3, h4⟩
  | cons p ps ih =>
    intro n d bn bd br hmem h1 h2 h3 h4
    have hp := hmem p (List.mem_cons_self p ps)
    have hmem2 := fun q hq => hmem q (List.mem_cons_of_mem _ hq)
    rw [huntGo_cons]
    by_cases hc : ¬(n ≥ p ∧ d ≥ p)
    · rw [if_pos hc]
      exact ih n d bn bd br hmem2 h1 h2 h3 h4
    · rw [if_neg hc]
      push_neg at hc
      obtain ⟨hn, hd⟩ := hc
      have hnq1 : 1 ≤ n.tdiv p := by
        rw [Int.tdiv_eq_ediv (by omega) (by omega)]
        rw [Int.le_ediv_iff_mul_le (by omega)]
        omega
      have hdq1 : 1 ≤ d.tdiv p := by
        rw [Int.tdiv_eq_ediv (by omega) (by omega)]
        rw [Int.le_ediv_iff_mul_le (by omega)]
        omega
      by_cases c2 : n.tdiv p > 32767 ∨ n.tdiv p < -32768
      · rw [if_pos c2]; exact ⟨h1, h2, h3, h4⟩
      · rw [if_neg c2]
        by_cases c3 : n.tdiv p < -32767
        · rw [if_pos c3]; exact ⟨h1, h2, h3, h4⟩
        · rw [if_neg c3]
          by_cases c4 : d.tdiv p > 32767 ∨ d.tdiv p < -32768
          · rw [if_pos c4]; exact ⟨h1, h2, h3, h4⟩
          · rw [if_neg c4]
            push_neg at c2 c4
            by_cases c5 : n.tmod p + d.tmod p < br
            · rw [if_pos c5]
              by_cases c6 : n.tmod p + d.tmod p ≤ 5
              · rw [if_pos c6]
                exact ⟨hnq1, by omega, hdq1, by omega⟩
              · rw [if_neg c6]
                exact ih n d _ _ _ hmem2 hnq1 (by omega) hdq1 (by omega)
            · rw [if_neg c5]
              exact ih n d bn bd br hmem2 h1 h2 h3 h4

theorem factorsGo_zero (c n : Nat) :
    factorsGo 0 c n = if n ≤ 1 then [] else if c * c > n then [n] else [] := rfl

theorem factorsGo_succ (fuel c n : Nat) :
    factorsGo (fuel + 1) c n =
      if n ≤ 1 then []
      else if c * c > n then [n]
      else
        if n % c = 0 then c :: factorsGo fuel c (n / c)
        else factorsGo fuel (c + 1) n := rfl

theorem factorsGo_two_le :
    ∀ (fuel c n : Nat), 2 ≤ c → ∀ x ∈ factorsGo fuel c n, 2 ≤ x := by
  intro fuel
  induction fuel with
  | zero =>
    intro c n hc x hx
    rw [factorsGo_zero] at hx
    by_cases h1 : n ≤ 1
    · rw [if_pos h1] at hx; simp at hx
    · rw [if_neg h1] at hx
      by_cases h2 : c * c > n
      · rw [if_pos h2] at hx
        simp at hx
        omega
      · rw [if_neg h2] at hx; simp at hx
  | succ fuel ih =>
    intro c n hc x hx
    rw [factorsGo_succ] at hx
    by_cases h1 : n ≤ 1
    · rw [if_pos h1] at hx; simp at hx
    · rw [if_neg h1] at hx
      by_cases h2 : c * c > n
      · rw [if_pos h2] at hx
        simp at hx
        omega
      · rw [if_neg h2] at hx
        by_cases h3 : n % c = 0
        · rw [if_pos h3] at hx
          rcases List.mem_cons.mp hx with h | h
          · omega
          · exact ih c (n / c) hc x h
        · rw [if_neg h3] at hx
          exact ih (c + 1) n (by omega) x hx

theorem factorsGo_prod :
    ∀ (fuel c n : Nat), 2 ≤ c → 1 ≤ n → 2 * n ≤ fuel + c →
      (factorsGo fuel c n).prod = n := by
  intro fuel
  induction fuel with
  | zero =>
    intro c n hc hn hf
    rw [factorsGo_zero]
    by_cases h1 : n ≤ 1
    · rw [if_pos h1]
      simp
      omega
    · rw [if_neg h1]
      have h2 : c * c > n := by nlinarith
      rw [if_pos h2]
      simp
  | succ fuel ih =>
    intro c n hc hn hf
    rw [factorsGo_succ]
    by_cases h1 : n ≤ 1
    · rw [if_pos h1]
      simp
      omega
    · rw [if_neg h1]
      by_cases h2 : c * c > n
      · rw [if_pos h2]
        simp
      · rw [if_neg h2]
        by_cases h3 : n % c = 0
        · rw [if_pos h3]
          have hdvd : c ∣ n := Nat.dvd_of_mod_eq_zero h3
          have hq1 : 1 ≤ n / c := Nat.one_le_div_iff (by omega) |>.mpr (by nlinarith)
          have hq2 : n / c ≤ n / 2 := Nat.div_le_div_left hc (by omega)
          have := ih c (n / c) hc hq1 (by omega)
          rw [List.prod_cons, this]
          exact Nat.mul_div_cancel' hdvd
        · rw [if_neg h3]
          exact ih (c + 1) n (by omega) hn (by omega)

theorem factorsOf_pos (d : Int) : ∀ x ∈ factorsOf d, 1 ≤ x := by
  intro x hx
  unfold factorsOf at hx
  obtain ⟨y, hy, rfl⟩ := List.mem_map.mp hx
  have := factorsGo_two_le (2 * d.natAbs + 2) 2 d.natAbs (le_refl 2) y hy
  omega

theorem factorsOf_prod (d : Int) (hd : 1 ≤ d) : (factorsOf d).prod = d := by
  unfold factorsOf
  rw [← Nat.cast_list_prod]
  rw [factorsGo_prod (2 * d.natAbs + 2) 2 d.natAbs (le_refl 2) (by omega) (by omega)]
  omega

theorem lcdGo_zero (af bf : List Int) (a b : Fraction32) :
    lcdGo 0 af bf a b = (a, b) := rfl

theorem lcdGo_nil_nil (fuel : Nat) (a b : Fraction32) :
    lcdGo (fuel + 1) [] [] a b = (a, b) := rfl

theorem lcdGo_cons_nil (fuel : Nat) (fa : Int) (af2 : List Int) (a b : Fraction32) :
    lcdGo (fuel + 1) (fa :: af2) [] a b =
      lcdGo fuel af2 [] a ⟨b.num * fa, b.den * fa⟩ := rfl

theorem lcdGo_nil_cons (fuel : Nat) (fb : Int) (bf2 : List Int) (a b : Fraction32) :
    lcdGo (fuel + 1) [] (fb :: bf2) a b =
      lcdGo fuel [] bf2 ⟨a.num * fb, a.den * fb⟩ b := rfl

theorem lcdGo_cons_cons (fuel : Nat) (fa fb : Int) (af2 bf2 : List Int) (a b : Fraction32) :
    lcdGo (fuel + 1) (fa :: af2) (fb :: bf2) a b =
      if fa < fb then lcdGo fuel af2 (fb :: bf2) a ⟨b.num * fa, b.den * fa⟩
      else if fa = fb then lcdGo fuel af2 bf2 a b
      else lcdGo fuel (fa :: af2) bf2 ⟨a.num * fb, a.den * fb⟩ b := rfl

/-- The merge loop multiplies each side's numerator and denominator by one
positive factor, and the two multipliers rebalance the two factor-list
products. -/
theorem lcdGo_spec :
    ∀ (fuel : Nat) (af bf : List Int) (a b : Fraction32),
      af.length + bf.length ≤ fuel →
      (∀ x ∈ af, 1 ≤ x) → (∀ x ∈ bf, 1 ≤ x) →
      ∃ ma mb : Int, 1 ≤ ma ∧ 1 ≤ mb ∧
        lcdGo fuel af bf a b = (⟨a.num * ma, a.den * ma⟩, ⟨b.num * mb, b.den * mb⟩) ∧
        ma * af.prod = mb * bf.prod := by
  intro fuel
  induction fuel with
  | zero =>
    intro af bf a b hlen _ _
    have haf : af = [] := List.length_eq_zero.mp (by omega)
    have hbf : bf = [] := List.length_eq_zero.mp (by omega)
    subst haf; subst hbf
    refine ⟨1, 1, le_refl 1, le_refl 1, ?_, by simp⟩
    rw [lcdGo_zero]
    cases a; cases b
    simp
  | succ fuel ih =>
    intro af bf a b hlen hpa hpb
    cases af with
    | nil =>
      cases bf with
      | nil =>
        refine ⟨1, 1, le_refl 1, le_refl 1, ?_, by simp⟩
        rw [lcdGo_nil_nil]
        cases a; cases b
        simp
      | cons fb bf2 =>
        have hfb := hpb fb (List.mem_cons_self _ _)
        obtain ⟨ma, mb, h1, h2, h3, h4⟩ :=
          ih [] bf2 ⟨a.num * fb, a.den * fb⟩ b (by simp at hlen ⊢; omega)
            (by intro x hx; simp at hx) (fun x hx => hpb x (List.mem_cons_of_mem _ hx))
        refine ⟨fb * ma, mb, by nlinarith, h2, ?_, ?_⟩
        · rw [lcdGo_nil_cons, h3, mul_assoc a.num fb ma, mul_assoc a.den fb ma]
        · simp only [List.prod_nil, List.prod_cons] at h4 ⊢
          linear_combination fb * h4
    | cons fa af2 =>
      have hfa := hpa fa (List.mem_cons_self _ _)
      cases bf with
      | nil =>
        obtain ⟨ma, mb, h1, h2, h3, h4⟩ :=
          ih af2 [] a ⟨b.num * fa, b.den * fa⟩ (by simp at hlen ⊢; omega)
            (fun x hx => hpa x (List.mem_cons_of_mem _ hx)) (by intro x hx; simp at hx)
        refine ⟨ma, fa * mb, h1, by nlinarith, ?_, ?_⟩
        · rw [lcdGo_cons_nil, h3, mul_assoc b.num fa mb, mul_assoc b.den fa mb]
        · simp only [List.prod_nil, List.prod_cons] at h4 ⊢
          linear_combination fa * h4
      | cons fb bf2 =>
        have hfb := hpb fb (List.mem_cons_self _ _)
        rw [lcdGo_cons_cons]
        by_cases hlt : fa < fb
        · rw [if_pos hlt]
          obtain ⟨ma, mb, h1, h2, h3, h4⟩ :=
            ih af2 (fb :: bf2) a ⟨b.num * fa, b.den * fa⟩ (by simp at hlen ⊢; omega)
              (fun x hx => hpa x (List.mem_cons_of_mem _ hx)) hpb
          refine ⟨ma, fa * mb, h1, by nlinarith, ?_, ?_⟩
          · rw [h3, mul_assoc b.num fa mb, mul_assoc b.den fa mb]
          · simp only [List.prod_cons] at h4 ⊢
            linear_combination fa * h4
        · rw [if_neg hlt]
          by_cases heq : fa = fb
          · rw [if_pos heq]
            obtain ⟨ma, mb, h1, h2, h3, h4⟩ :=
              ih af2 bf2 a b (by simp at hlen ⊢; omega)
                (fun x hx => hpa x (List.mem_cons_of_mem _ hx))
                (fun x hx => hpb x (List.mem_cons_of_mem _ hx))
            refine ⟨ma, mb, h1, h2, h3, ?_⟩
            simp only [List.prod_cons]
            subst heq
            linear_combination fa * h4
          · rw [if_neg heq]
            obtain ⟨ma, mb, h1, h2, h3, h4⟩ :=
              ih (fa :: af2) bf2 ⟨a.num * fb, a.den * fb⟩ b (by simp at hlen ⊢; omega)
                hpa (fun x hx => hpb x (List.mem_cons_of_mem _ hx))
            refine ⟨fb * ma, mb, by nlinarith, h2, ?_, ?_⟩
            · rw [h3, mul_assoc a.num fb ma, mul_assoc a.den fb ma]
            · simp only [List.prod_cons] at h4 ⊢
              linear_combination fb * h4

/-- `LowestCommonDenominator::find` rescales both fractions by positive
multipliers to a common denominator. -/
theorem lcdFind_spec (a b : Fraction) (ha : 1 ≤ a.den) (hb : 1 ≤ b.den) :
    ∃ ma mb : Int, 1 ≤ ma ∧ 1 ≤ mb ∧
      lcdFind a b = (⟨a.num * ma, a.den * ma⟩, ⟨b.num * mb, b.den * mb⟩) ∧
      a.den * ma = b.den * mb := by
  obtain ⟨ma, mb, h1, h2, h3, h4⟩ :=
    lcdGo_spec ((factorsOf a.den).length + (factorsOf b.den).length + 1)
      (factorsOf a.den) (factorsOf b.den) ⟨a.num, a.den⟩ ⟨b.num, b.den⟩
      (by omega) (factorsOf_pos _) (factorsOf_pos _)
  rw [factorsOf_prod a.den ha, factorsOf_prod b.den hb] at h4
  exact ⟨ma, mb, h1, h2, h3, by linear_combination h4⟩

theorem lcdFind32_den (a b : Fraction32) (ha : 1 ≤ a.den) (hb : 1 ≤ b.den) :
    1 ≤ (lcdFind32 a b).1.den := by
  unfold lcdFind32
  by_cases he : a.den = b.den
  · rw [if_pos he]
    exact ha
  · rw [if_neg he]
    obtain ⟨ma, mb, h1, h2, h3, _⟩ :=
      lcdGo_spec ((factorsOf a.den).length + (factorsOf b.den).length + 1)
        (factorsOf a.den) (factorsOf b.den) a b
        (by omega) (factorsOf_pos _) (factorsOf_pos _)
    rw [h3]
    show 1 ≤ a.den * ma
    nlinarith

set_option maxRecDepth 100000 in
theorem from32_inv (f : Fraction32) (hd : 1 ≤ f.den) : FractionInv (from32 f) := by
  obtain ⟨r1, r2, r3, r4, r5⟩ := reduceCode_basic 32 f.num f.den hd
  show FractionInv
    (if -32768 ≤ (reduceCode 32 f.num f.den).1 ∧ (reduceCode 32 f.num f.den).1 ≤ 32767 ∧
        -32768 ≤ (reduceCode 32 f.num f.den).2 ∧ (reduceCode 32 f.num f.den).2 ≤ 32767 ∧
        -32767 ≤ (reduceCode 32 f.num f.den).1 then
      Fraction.new_maybe_reduced (reduceCode 32 f.num f.den).1 (reduceCode 32 f.num f.den).2
    else
      ⟨(huntGo PRIMES.reverse (reduceCode 32 f.num f.den).1 (reduceCode 32 f.num f.den).2
          32767 32767 (2 ^ 31 - 1)).1,
        (huntGo PRIMES.reverse (reduceCode 32 f.num f.den).1 (reduceCode 32 f.num f.den).2
          32767 32767 (2 ^ 31 - 1)).2⟩)
  by_cases hfit : -32768 ≤ (reduceCode 32 f.num f.den).1 ∧ (reduceCode 32 f.num f.den).1 ≤ 32767 ∧
      -32768 ≤ (reduceCode 32 f.num f.den).2 ∧ (reduceCode 32 f.num f.den).2 ≤ 32767 ∧
      -32767 ≤ (reduceCode 32 f.num f.den).1
  · rw [if_pos hfit]
    unfold Fraction.new_maybe_reduced
    rw [if_neg (by omega)]
    exact ⟨r1, hfit.2.2.2.1, hfit.2.2.2.2, hfit.2.1, r5⟩
  · rw [if_neg hfit]
    obtain ⟨g1, g2, g3, g4⟩ :=
      huntGo_bounds PRIMES.reverse (reduceCode 32 f.num f.den).1 (reduceCode 32 f.num f.den).2
        32767 32767 (2 ^ 31 - 1) (fun q hq => PRIMES_two_le q (List.mem_reverse.mp hq))
        (by norm_num) (by norm_num) (by norm_num) (by norm_num)
    refine ⟨g3, g4, le_trans (by norm_num) g1, g2, fun hz => ?_⟩
    have hz2 : (huntGo PRIMES.reverse (reduceCode 32 f.num f.den).1
        (reduceCode 32 f.num f.den).2 32767 32767 (2 ^ 31 - 1)).1 = 0 := hz
    exact absurd hz2 (by omega)

theorem add32_den (a b : Fraction32) (ha : 1 ≤ a.den) (hb : 1 ≤ b.den) :
    1 ≤ (add32 a b).den := by
  unfold add32
  exact (reduceCode_basic 32 _ _ (lcdFind32_den a b ha hb)).1

theorem sub32_den (a b : Fraction32) (ha : 1 ≤ a.den) (hb : 1 ≤ b.den) :
    1 ≤ (sub32 a b).den := by
  unfold sub32
  exact (reduceCode_basic 32 _ _ (lcdFind32_den a b ha hb)).1

theorem lcdFind_dens (a b : Fraction) (ha : 1 ≤ a.den) (hb : 1 ≤ b.den) :
    1 ≤ (lcdFind a b).1.den ∧ 1 ≤ (lcdFind a b).2.den := by
  obtain ⟨ma, mb, h1, h2, h3, _⟩ := lcdFind_spec a b ha hb
  rw [h3]
  constructor
  · show 1 ≤ a.den * ma
    nlinarith
  · show 1 ≤ b.den * mb
    nlinarith

theorem fraction_add_inv (a b : Fraction) (ha : 1 ≤ a.den) (ha2 : a.den ≤ 32767)
    (hb : 1 ≤ b.den) (hb2 : b.den ≤ 32767) : FractionInv (a.add b) := by
  show FractionInv (from32 (add32 (lcdFind a b).1 (lcdFind a b).2))
  obtain ⟨c1, c2⟩ := lcdFind_dens a b ha hb
  exact from32_inv _ (add32_den _ _ c1 c2)

theorem fraction_sub_inv (a b : Fraction) (ha : 1 ≤ a.den) (ha2 : a.den ≤ 32767)
    (hb : 1 ≤ b.den) (hb2 : b.den ≤ 32767) : FractionInv (a.sub b) := by
  show FractionInv (from32 (sub32 (lcdFind a b).1 (lcdFind a b).2))
  obtain ⟨c1, c2⟩ := lcdFind_dens a b ha hb
  exact from32_inv _ (sub32_den _ _ c1 c2)

theorem fraction_mul_inv (a b : Fraction) (ha : 1 ≤ a.den) (hb : 1 ≤ b.den) :
    FractionInv (a.mul b) := by
  show FractionInv (from32 ⟨a.num * b.num, a.den * b.den⟩)
  exact from32_inv _ (by show 1 ≤ a.den * b.den; nlinarith)

theorem fraction_inverse_inv (b : Fraction) (hb : FractionInv b) (h0 : b.num ≠ 0) :
    FractionInv b.inverse := by
  obtain ⟨i1, i2, i3, i4, _⟩ := hb
  unfold Fraction.inverse
  by_cases hn : b.num ≥ 0
  · rw [if_pos hn]
    exact ⟨(by omega : (1 : Int) ≤ b.num), (by omega : b.num ≤ 32767),
      (by omega : (-32767 : Int) ≤ b.den), (by omega : b.den ≤ 32767),
      fun hz => absurd (show b.den = 0 from hz) (by omega)⟩
  · rw [if_neg hn]
    exact ⟨(by omega : (1 : Int) ≤ -b.num), (by omega : -b.num ≤ 32767),
      (by omega : (-32767 : Int) ≤ -b.den), (by omega : -b.den ≤ 32767),
      fun hz => absurd (show -b.den = 0 from hz) (by omega)⟩

theorem new_maybe_reduced_nonneg (n d : Int) (hd : ¬(d < 0)) :
    Fraction.new_maybe_reduced n d = ⟨n, d⟩ := by
  unfold Fraction.new_maybe_reduced
  rw [if_neg hd]

theorem new_maybe_reduced_neg (n d : Int) (hd : d < 0) :
    Fraction.new_maybe_reduced n d = ⟨satNeg16 n, satNeg16 d⟩ := by
  unfold Fraction.new_maybe_reduced
  rw [if_pos hd]

theorem satNeg16_eq (x : Int) (hx : x ≠ -32768) : satNeg16 x = -x := by
  unfold satNeg16
  rw [if_neg hx]

theorem satNeg16_min : satNeg16 (-32768) = 32767 := rfl

theorem fraction_new_eq (n d : Int) :
    Fraction.new n d =
      ⟨(reduceCode 16 (Fraction.new_maybe_reduced (max n (-32767)) d).num
          (Fraction.new_maybe_reduced (max n (-32767)) d).den).1,
        (reduceCode 16 (Fraction.new_maybe_reduced (max n (-32767)) d).num
          (Fraction.new_maybe_reduced (max n (-32767)) d).den).2⟩ := rfl

theorem fraction_new_inv_core (m d : Int) (hm1 : -32767 ≤ m) (hm2 : m ≤ 32767)
    (hd1 : 1 ≤ d) (hd2 : d ≤ 32767) :
    FractionInv ⟨(reduceCode 16 m d).1, (reduceCode 16 m d).2⟩ := by
  obtain ⟨r1, r2, r3, r4, r5⟩ := reduceCode_basic 16 m d hd1
  exact ⟨r1, (by omega : (reduceCode 16 m d).2 ≤ 32767),
    (by omega : -32767 ≤ (reduceCode 16 m d).1),
    (by omega : (reduceCode 16 m d).1 ≤ 32767), r5⟩

theorem fraction_new_inv (n d : Int) (hn1 : -32768 ≤ n) (hn2 : n ≤ 32767)
    (hd1 : -32768 ≤ d) (hd2 : d ≤ 32767) (hd0 : d ≠ 0) :
    FractionInv (Fraction.new n d) := by
  have hmax1 : -32767 ≤ max n (-32767) := le_max_right _ _
  have hmax2 : max n (-32767) ≤ 32767 := max_le hn2 (by norm_num)
  rw [fraction_new_eq]
  rcases lt_or_ge d 0 with hdneg | hdpos
  · by_cases h8 : d = -32768
    · rw [new_maybe_reduced_neg _ _ hdneg, satNeg16_eq _ (by omega), h8, satNeg16_min]
      show FractionInv ⟨(reduceCode 16 (-(max n (-32767))) 32767).1,
        (reduceCode 16 (-(max n (-32767))) 32767).2⟩
      exact fraction_new_inv_core _ _ (by omega) (by omega) (by omega) (by omega)
    · rw [new_maybe_reduced_neg _ _ hdneg, satNeg16_eq _ (by omega), satNeg16_eq _ h8]
      show FractionInv ⟨(reduceCode 16 (-(max n (-32767))) (-d)).1,
        (reduceCode 16 (-(max n (-32767))) (-d)).2⟩
      exact fraction_new_inv_core _ _ (by omega) (by omega) (by omega) (by omega)
  · rw [new_maybe_reduced_nonneg _ _ (by omega)]
    show FractionInv ⟨(reduceCode 16 (max n (-32767)) d).1,
      (reduceCode 16 (max n (-32767)) d).2⟩
    exact fraction_new_inv_core _ _ (by omega) (by omega) (by omega) (by omega)

/-- C3 (amended): every `Fraction` built by `new` from `i16` arguments with a
nonzero denominator, or by `add`, `sub`, `mul`, `div` (by a fraction with
nonzero numerator), `neg`, `abs` or `inverse` (of a fraction with nonzero
numerator) of fractions already satisfying the invariant, has denominator in
`[1, 32767]`, numerator in `[-32767, 32767]`, and stores zero only as `0/1`;
`new_whole` stores any `i16` argument verbatim over denominator `1`, so the
denominator and zero-representation invariants hold on the whole `i16`
range, while the symmetric numerator bound additionally holds whenever the
argument is at least `-32767` (`Fraction::MIN = new_whole(-32768)` keeps
numerator `-32768`). -/
theorem fraction_invariant_amended (a b : Fraction) (n d w : Int)
    (ha : FractionInv a) (hb : FractionInv b)
    (hn1 : -32768 ≤ n) (hn2 : n ≤ 32767)
    (hd1 : -32768 ≤ d) (hd2 : d ≤ 32767) (hd0 : d ≠ 0)
    (hw1 : -32768 ≤ w) (hw2 : w ≤ 32767) :
    FractionInv (Fraction.new n d) ∧
      ((Fraction.new_whole w).num = w ∧ (Fraction.new_whole w).den = 1 ∧
        (-32767 ≤ w → FractionInv (Fraction.new_whole w))) ∧
      FractionInv (a.add b) ∧ FractionInv (a.sub b) ∧ FractionInv (a.mul b) ∧
      (b.num ≠ 0 → FractionInv (a.div b)) ∧ FractionInv a.neg ∧
      FractionInv a.abs ∧ (a.num ≠ 0 → FractionInv a.inverse) := by
  obtain ⟨a1, a2, a3, a4, a5⟩ := ha
  obtain ⟨b1, b2, b3, b4, b5⟩ := hb
  refine ⟨fraction_new_inv n d hn1 hn2 hd1 hd2 hd0,
    ⟨rfl, rfl, fun hw3 =>
      ⟨(by norm_num : (1 : Int) ≤ 1), (by norm_num : (1 : Int) ≤ 32767),
        (by omega : -32767 ≤ w), (by omega : w ≤ 32767), fun _ => rfl⟩⟩,
    fraction_add_inv a b a1 a2 b1 b2, fraction_sub_inv a b a1 a2 b1 b2,
    fraction_mul_inv a b a1 b1, ?_, ?_, ?_,
    fun h0 => fraction_inverse_inv a ⟨a1, a2, a3, a4, a5⟩ h0⟩
  · intro h0
    obtain ⟨i1, i2, i3, i4, i5⟩ := fraction_inverse_inv b ⟨b1, b2, b3, b4, b5⟩ h0
    exact fraction_mul_inv a b.inverse a1 i1
  · exact ⟨a1, a2, (by omega : (-32767 : Int) ≤ -a.num), (by omega : -a.num ≤ 32767),
      fun hz => a5 (by have hz2 : -a.num = 0 := hz; omega)⟩
  · unfold Fraction.abs
    by_cases hn : a.num ≥ 0
    · rw [if_pos hn]
      exact ⟨a1, a2, a3, a4, a5⟩
    · rw [if_neg hn]
      exact ⟨a1, a2, (by omega : (-32767 : Int) ≤ -a.num), (by omega : -a.num ≤ 32767),
        fun hz => absurd (show -a.num = 0 from hz) (by omega)⟩

/-- C3, witness: the amended invariant applied at concrete inputs, with
`new_whole` exercised at `Fraction::MIN`'s argument `-32768`. -/
theorem fraction_invariant_amended_witness :
    FractionInv (Fraction.new 2 4) ∧
      ((Fraction.new_whole (-32768)).num = -32768 ∧
        (Fraction.new_whole (-32768)).den = 1 ∧
        (-32767 ≤ (-32768 : Int) → FractionInv (Fraction.new_whole (-32768)))) ∧
      FractionInv (Fraction.add ⟨1, 2⟩ ⟨1, 3⟩) ∧ FractionInv (Fraction.sub ⟨1, 2⟩ ⟨1, 3⟩) ∧
      FractionInv (Fraction.mul ⟨1, 2⟩ ⟨1, 3⟩) ∧
      ((⟨1, 3⟩ : Fraction).num ≠ 0 → FractionInv (Fraction.div ⟨1, 2⟩ ⟨1, 3⟩)) ∧
      FractionInv (Fraction.neg ⟨1, 2⟩) ∧ FractionInv (Fraction.abs ⟨1, 2⟩) ∧
      ((⟨1, 2⟩ : Fraction).num ≠ 0 → FractionInv (Fraction.inverse ⟨1, 2⟩)) :=
  fraction_invariant_amended ⟨1, 2⟩ ⟨1, 3⟩ 2 4 (-32768)
    (by constructor <;> norm_num) (by constructor <;> norm_num)
    (by norm_num) (by norm_num) (by norm_num) (by norm_num) (by norm_num)
    (by norm_num) (by norm_num)

theorem compare_mul_right (x y c : Int) (hc : 0 < c) :
    compare (x * c) (y * c) = compare x y := by
  rcases lt_trichotomy x y with h | h | h
  · rw [compare_lt_iff_lt.mpr h, compare_lt_iff_lt.mpr (mul_lt_mul_of_pos_right h hc)]
  · rw [h, compare_eq_iff_eq.mpr rfl, compare_eq_iff_eq.mpr rfl]
  · rw [compare_gt_iff_gt.mpr h, compare_gt_iff_gt.mpr (mul_lt_mul_of_pos_right h hc)]

/-- C6, amended: away from the equal-numerator fast path with a
nonpositive shared numerator, `Ord for Fraction` agrees with the
mathematical cross-multiplied order; and the two documented examples hold. -/
theorem fraction_cmp_amended (a b : Fraction) (ha : 1 ≤ a.den) (hb : 1 ≤ b.den)
    (hz : a.num = b.num → 0 < a.num ∨ a.den = b.den) :
    Fraction.cmp a b = compare (a.num * b.den) (b.num * a.den) ∧
      Fraction.cmp (Fraction.new 1 3) (Fraction.new 2 3) = Ordering.lt ∧
      Fraction.cmp (Fraction.new 2 3) (Fraction.new 1 2) = Ordering.gt := by
  refine ⟨?_, by decide, by decide⟩
  unfold Fraction.cmp
  by_cases hde : a.den = b.den
  · rw [if_pos hde, hde]
    exact (compare_mul_right a.num b.num b.den (by omega)).symm
  · rw [if_neg hde]
    by_cases hne : a.num = b.num
    · rw [if_pos hne]
      rcases hz hne with hpos | hdeq
      · rw [← hne]
        rw [show a.num * b.den = b.den * a.num by ring, show a.num * a.den = a.den * a.num by ring]
        exact (compare_mul_right b.den a.den a.num hpos).symm
      · exact absurd hdeq hde
    · rw [if_neg hne]
      obtain ⟨ma, mb, h1, h2, h3, h4⟩ := lcdFind_spec a b ha hb
      rw [h3]
      show compare (a.num * ma) (b.num * mb) = _
      have hab : (0 : Int) < a.den * b.den := by nlinarith
      have hD : (0 : Int) < a.den * ma := by nlinarith
      calc compare (a.num * ma) (b.num * mb)
          = compare (a.num * ma * (a.den * b.den)) (b.num * mb * (a.den * b.den)) :=
            (compare_mul_right _ _ _ hab).symm
        _ = compare (a.num * b.den * (a.den * ma)) (b.num * a.den * (a.den * ma)) := by
            rw [show a.num * ma * (a.den * b.den) = a.num * b.den * (a.den * ma) by ring,
              show b.num * mb * (a.den * b.den) = b.num * a.den * (b.den * mb) by ring, ← h4]
        _ = compare (a.num * b.den) (b.num * a.den) := compare_mul_right _ _ _ hD

/-- C6, witness: the amended comparison applied to 1/3 and 2/3. -/
theorem fraction_cmp_amended_witness :
    Fraction.cmp ⟨1, 3⟩ ⟨2, 3⟩ =
        compare ((⟨1, 3⟩ : Fraction).num * (⟨2, 3⟩ : Fraction).den)
          ((⟨2, 3⟩ : Fraction).num * (⟨1, 3⟩ : Fraction).den) ∧
      Fraction.cmp (Fraction.new 1 3) (Fraction.new 2 3) = Ordering.lt ∧
      Fraction.cmp (Fraction.new 2 3) (Fraction.new 1 2) = Ordering.gt :=
  fraction_cmp_amended ⟨1, 3⟩ ⟨2, 3⟩ (by norm_num) (by norm_num) (by decide)

theorem oddWalk_succ_nil (cnt n : Nat) :
    oddWalk (cnt + 1) n [] = (hasFactorOdd n 3 100 && oddWalk cnt (n + 2) []) := rfl

theorem oddWalk_succ_cons (cnt n : Nat) (p : Int) (tl : List Int) :
    oddWalk (cnt + 1) n (p :: tl) =
      if p = (n : Int) then oddWalk cnt (n + 2) tl
      else hasFactorOdd n 3 100 && oddWalk cnt (n + 2) (p :: tl) := rfl

theorem walkSeg_succ_nil (cnt n j : Nat) :
    walkSeg (cnt + 1) n [] j =
      (if hasFactorOdd n 3 100 then walkSeg cnt (n + 2) [] j else none) := rfl

theorem walkSeg_succ_cons (cnt n j : Nat) (p : Int) (tl : List Int) :
    walkSeg (cnt + 1) n (p :: tl) j =
      (if p = (n : Int) then walkSeg cnt (n + 2) tl (j + 1)
       else if hasFactorOdd n 3 100 then walkSeg cnt (n + 2) (p :: tl) j else none) := rfl

theorem walkSeg_sound :
    ∀ (c1 n : Nat) (ps : List Int) (j jout : Nat),
      walkSeg c1 n ps j = some jout →
      j ≤ jout ∧
        ∀ c2 : Nat, oddWalk c2 (n + 2 * c1) (ps.drop (jout - j)) = true →
          oddWalk (c1 + c2) n ps = true := by
  intro c1
  induction c1 with
  | zero =>
    intro n ps j jout h
    simp only [walkSeg, Option.some.injEq] at h
    subst h
    refine ⟨le_refl j, fun c2 h2 => ?_⟩
    rw [Nat.zero_add]
    simpa using h2
  | succ c1 ih =>
    intro n ps j jout h
    cases ps with
    | nil =>
      rw [walkSeg_succ_nil] at h
      by_cases hf : hasFactorOdd n 3 100
      · rw [if_pos hf] at h
        obtain ⟨hle, hrest⟩ := ih (n + 2) [] j jout h
        refine ⟨hle, fun c2 h2 => ?_⟩
        rw [Nat.succ_add, oddWalk_succ_nil, hf, Bool.true_and]
        apply hrest c2
        simp only [List.drop_nil] at h2 ⊢
        have e : n + 2 * (c1 + 1) = n + 2 + 2 * c1 := by ring
        rw [e] at h2
        exact h2
      · rw [if_neg hf] at h
        exact absurd h (by simp)
    | cons p tl =>
      rw [walkSeg_succ_cons] at h
      by_cases hp : p = (n : Int)
      · rw [if_pos hp] at h
        obtain ⟨hle, hrest⟩ := ih (n + 2) tl (j + 1) jout h
        refine ⟨by omega, fun c2 h2 => ?_⟩
        rw [Nat.succ_add, oddWalk_succ_cons, if_pos hp]
        apply hrest c2
        have e : n + 2 * (c1 + 1) = n + 2 + 2 * c1 := by ring
        rw [e] at h2
        have e2 : (p :: tl).drop (jout - j) = tl.drop (jout - (j + 1)) := by
          have e3 : jout - j = (jout - (j + 1)) + 1 := by omega
          rw [e3]
          rfl
        rw [e2] at h2
        exact h2
      · rw [if_neg hp] at h
        by_cases hf : hasFactorOdd n 3 100
        · rw [if_pos hf] at h
          obtain ⟨hle, hrest⟩ := ih (n + 2) (p :: tl) j jout h
          refine ⟨hle, fun c2 h2 => ?_⟩
          rw [Nat.succ_add, oddWalk_succ_cons, if_neg hp, hf, Bool.true_and]
          apply hrest c2
          have e : n + 2 * (c1 + 1) = n + 2 + 2 * c1 := by ring
          rw [e] at h2
          exact h2
        · rw [if_neg hf] at h
          exact absurd h (by simp)

theorem hasFactorOdd_sound :
    ∀ (fuel c n : Nat), 3 ≤ c → hasFactorOdd n c fuel = true →
      ∃ m, 3 ≤ m ∧ m * m ≤ n ∧ m ∣ n := by
  intro fuel
  induction fuel with
  | zero =>
    intro c n _ h
    exact absurd h (by simp [hasFactorOdd])
  | succ fuel ih =>
    intro c n hc h
    unfold hasFactorOdd at h
    by_cases h1 : n < c * c
    · rw [if_pos h1] at h
      exact absurd h (by simp)
    · rw [if_neg h1] at h
      by_cases h2 : n % c = 0
      · exact ⟨c, hc, by omega, Nat.dvd_of_mod_eq_zero h2⟩
      · rw [if_neg h2] at h
        exact ih (c + 2) n (by omega) h

theorem not_prime_of_factor (n : Nat) :
    (∃ m, 3 ≤ m ∧ m * m ≤ n ∧ m ∣ n) → ¬n.Prime := by
  rintro ⟨m, h3, hmm, hdvd⟩ hp
  rcases (Nat.Prime.eq_one_or_self_of_dvd hp m hdvd) with h | h
  · omega
  · subst h
    have := hp.two_le
    nlinarith
set_option maxRecDepth 1000000 in
theorem walkSeg_c0 : walkSeg 800 3 (PRIMES.tail) 0 = some 251 := by decide

set_option maxRecDepth 1000000 in
theorem walkSeg_c1 : walkSeg 800 1603 (PRIMES.tail.drop 251) 0 = some 200 := by decide

set_option maxRecDepth 1000000 in
theorem walkSeg_c2 : walkSeg 800 3203 (PRIMES.tail.drop 451) 0 = some 195 := by decide

set_option maxRecDepth 1000000 in
theorem walkSeg_c3 : walkSeg 800 4803 (PRIMES.tail.drop 646) 0 = some 187 := by decide

set_option maxRecDepth 1000000 in
theorem walkSeg_c4 : walkSeg 800 6403 (PRIMES.tail.drop 833) 0 = some 173 := by decide

set_option maxRecDepth 1000000 in
theorem walkSeg_c5 : walkSeg 800 8003 (PRIMES.tail.drop 1006) 0 = some 178 := by decide

set_option maxRecDepth 1000000 in
theorem walkSeg_c6 : walkSeg 800 9603 (PRIMES.tail.drop 1184) 0 = some 171 := by decide

set_option maxRecDepth 1000000 in
theorem walkSeg_c7 : walkSeg 800 11203 (PRIMES.tail.drop 1355) 0 = some 170 := by decide

set_option maxRecDepth 1000000 in
theorem walkSeg_c8 : walkSeg 800 12803 (PRIMES.tail.drop 1525) 0 = some 161 := by decide

set_option maxRecDepth 1000000 in
theorem walkSeg_c9 : walkSeg 800 14403 (PRIMES.tail.drop 1686) 0 = some 176 := by decide

set_option maxRecDepth 1000000 in
theorem walkSeg_c10 : walkSeg 800 16003 (PRIMES.tail.drop 1862) 0 = some 161 := by decide

set_option maxRecDepth 1000000 in
theorem walkSeg_c11 : walkSeg 800 17603 (PRIMES.tail.drop 2023) 0 = some 152 := by decide

set_option maxRecDepth 1000000 in
theorem walkSeg_c12 : walkSeg 800 19203 (PRIMES.tail.drop 2175) 0 = some 166 := by decide

set_option maxRecDepth 1000000 in
theorem walkSeg_c13 : walkSeg 800 20803 (PRIMES.tail.drop 2341) 0 = some 165 := by decide

set_option maxRecDepth 1000000 in
theorem walkSeg_c14 : walkSeg 800 22403 (PRIMES.tail.drop 2506) 0 = some 162 := by decide

set_option maxRecDepth 1000000 in
theorem walkSeg_c15 : walkSeg 800 24003 (PRIMES.tail.drop 2668) 0 = some 150 := by decide

set_option maxRecDepth 1000000 in
theorem walkSeg_c16 : walkSeg 800 25603 (PRIMES.tail.drop 2818) 0 = some 160 := by decide

set_option maxRecDepth 1000000 in
theorem walkSeg_c17 : walkSeg 800 27203 (PRIMES.tail.drop 2978) 0 = some 157 := by decide

set_option maxRecDepth 1000000 in
theorem walkSeg_c18 : walkSeg 800 28803 (PRIMES.tail.drop 3135) 0 = some 148 := by decide

set_option maxRecDepth 1000000 in
theorem walkSeg_c19 : walkSeg 800 30403 (PRIMES.tail.drop 3283) 0 = some 148 := by decide

set_option maxRecDepth 1000000 in
theorem walkSeg_cfin : oddWalk 383 32003 (PRIMES.tail.drop 3431) = true := by decide

theorem PRIMES_walk : oddWalk 16383 3 PRIMES.tail = true := by
  have g20 : oddWalk 383 32003 (PRIMES.tail.drop 3431) = true := walkSeg_cfin
  have g19 : oddWalk 1183 30403 (PRIMES.tail.drop 3283) = true :=
    (walkSeg_sound 800 30403 (PRIMES.tail.drop 3283) 0 148 walkSeg_c19).2 383 (by rw [List.drop_drop]; exact g20)
  have g18 : oddWalk 1983 28803 (PRIMES.tail.drop 3135) = true :=
    (walkSeg_sound 800 28803 (PRIMES.tail.drop 3135) 0 148 walkSeg_c18).2 1183 (by rw [List.drop_drop]; exact g19)
  have g17 : oddWalk 2783 27203 (PRIMES.tail.drop 2978) = true :=
    (walkSeg_sound 800 27203 (PRIMES.tail.drop 2978) 0 157 walkSeg_c17).2 1983 (by rw [List.drop_drop]; exact g18)
  have g16 : oddWalk 3583 25603 (PRIMES.tail.drop 2818) = true :=
    (walkSeg_sound 800 25603 (PRIMES.tail.drop 2818) 0 160 walkSeg_c16).2 2783 (by rw [List.drop_drop]; exact g17)
  have g15 : oddWalk 4383 24003 (PRIMES.tail.drop 2668) = true :=
    (walkSeg_sound 800 24003 (PRIMES.tail.drop 2668) 0 150 walkSeg_c15).2 3583 (by rw [List.drop_drop]; exact g16)
  have g14 : oddWalk 5183 22403 (PRIMES.tail.drop 2506) = true :=
    (walkSeg_sound 800 22403 (PRIMES.tail.drop 2506) 0 162 walkSeg_c14).2 4383 (by rw [List.drop_drop]; exact g15)
  have g13 : oddWalk 5983 20803 (PRIMES.tail.drop 2341) = true :=
    (walkSeg_sound 800 20803 (PRIMES.tail.drop 2341) 0 165 walkSeg_c13).2 5183 (by rw [List.drop_drop]; exact g14)
  have g12 : oddWalk 6783 19203 (PRIMES.tail.drop 2175) = true :=
    (walkSeg_sound 800 19203 (PRIMES.tail.drop 2175) 0 166 walkSeg_c12).2 5983 (by rw [List.drop_drop]; exact g13)
  have g11 : oddWalk 7583 17603 (PRIMES.tail.drop 2023) = true :=
    (walkSeg_sound 800 17603 (PRIMES.tail.drop 2023) 0 152 walkSeg_c11).2 6783 (by rw [List.drop_drop]; exact g12)
  have g10 : oddWalk 8383 16003 (PRIMES.tail.drop 1862) = true :=
    (walkSeg_sound 800 16003 (PRIMES.tail.drop 1862) 0 161 walkSeg_c10).2 7583 (by rw [List.drop_drop]; exact g11)
  have g9 : oddWalk 9183 14403 (PRIMES.tail.drop 1686) = true :=
    (walkSeg_sound 800 14403 (PRIMES.tail.drop 1686) 0 176 walkSeg_c9).2 8383 (by rw [List.drop_drop]; exact g10)
  have g8 : oddWalk 9983 12803 (PRIMES.tail.drop 1525) = true :=
    (walkSeg_sound 800 12803 (PRIMES.tail.drop 1525) 0 161 walkSeg_c8).2 9183 (by rw [List.drop_drop]; exact g9)
  have g7 : oddWalk 10783 11203 (PRIMES.tail.drop 1355) = true :=
    (walkSeg_sound 800 11203 (PRIMES.tail.drop 1355) 0 170 walkSeg_c7).2 9983 (by rw [List.drop_drop]; exact g8)
  have g6 : oddWalk 11583 9603 (PRIMES.tail.drop 1184) = true :=
    (walkSeg_sound 800 9603 (PRIMES.tail.drop 1184) 0 171 walkSeg_c6).2 10783 (by rw [List.drop_drop]; exact g7)
  have g5 : oddWalk 12383 8003 (PRIMES.tail.drop 1006) = true :=
    (walkSeg_sound 800 8003 (PRIMES.tail.drop 1006) 0 178 walkSeg_c5).2 11583 (by rw [List.drop_drop]; exact g6)
  have g4 : oddWalk 13183 6403 (PRIMES.tail.drop 833) = true :=
    (walkSeg_sound 800 6403 (PRIMES.tail.drop 833) 0 173 walkSeg_c4).2 12383 (by rw [List.drop_drop]; exact g5)
  have g3 : oddWalk 13983 4803 (PRIMES.tail.drop 646) = true :=
    (walkSeg_sound 800 4803 (PRIMES.tail.drop 646) 0 187 walkSeg_c3).2 13183 (by rw [List.drop_drop]; exact g4)
  have g2 : oddWalk 14783 3203 (PRIMES.tail.drop 451) = true :=
    (walkSeg_sound 800 3203 (PRIMES.tail.drop 451) 0 195 walkSeg_c2).2 13983 (by rw [List.drop_drop]; exact g3)
  have g1 : oddWalk 15583 1603 (PRIMES.tail.drop 251) = true :=
    (walkSeg_sound 800 1603 (PRIMES.tail.drop 251) 0 200 walkSeg_c1).2 14783 (by rw [List.drop_drop]; exact g2)
  have g0 : oddWalk 16383 3 (PRIMES.tail) = true :=
    (walkSeg_sound 800 3 (PRIMES.tail) 0 251 walkSeg_c0).2 15583 g1
  exact g0

/-- Primes found while walking: every prime visited by a successful
`oddWalk` either matches the next list entry or is refuted by
`hasFactorOdd`, so all primes in the walked range are in the list. -/
theorem oddWalk_sound :
    ∀ (cnt n : Nat) (ps : List Int), oddWalk cnt n ps = true →
      ∀ q : Nat, Nat.Prime q → n ≤ q → q < n + 2 * cnt → q % 2 = n % 2 →
        (q : Int) ∈ ps := by
  intro cnt
  induction cnt with
  | zero =>
    intro n ps _ q _ h1 h2 _
    omega
  | succ cnt ih =>
    intro n ps h q hq h1 h2 h3
    cases ps with
    | nil =>
      rw [oddWalk_succ_nil, Bool.and_eq_true] at h
      obtain ⟨hf, hw⟩ := h
      by_cases hqn : q = n
      · subst hqn
        exact absurd hq
          (not_prime_of_factor q (hasFactorOdd_sound 100 3 q (by norm_num) hf))
      · exact ih (n + 2) [] hw q hq (by omega) (by omega) (by omega)
    | cons p tl =>
      rw [oddWalk_succ_cons] at h
      by_cases hp : p = (n : Int)
      · rw [if_pos hp] at h
        by_cases hqn : q = n
        · subst hqn
          simp [hp]
        · exact List.mem_cons_of_mem p
            (ih (n + 2) tl h q hq (by omega) (by omega) (by omega))
      · rw [if_neg hp, Bool.and_eq_true] at h
        obtain ⟨hf, hw⟩ := h
        by_cases hqn : q = n
        · subst hqn
          exact absurd hq
            (not_prime_of_factor q (hasFactorOdd_sound 100 3 q (by norm_num) hf))
        · exact ih (n + 2) (p :: tl) hw q hq (by omega) (by omega) (by omega)

/-- Completeness of the modelled prime list: every prime up to `32767`
appears in `PRIMES`. -/
theorem PRIMES_complete (q : Nat) (hq : q.Prime) (hle : q ≤ 32767) :
    (q : Int) ∈ PRIMES := by
  by_cases h2 : q = 2
  · subst h2
    exact List.mem_cons_self 2 _
  · have htwo := hq.two_le
    have hodd : q % 2 = 1 := by
      by_contra hmod
      have hdvd : 2 ∣ q := Nat.dvd_of_mod_eq_zero (by omega)
      rcases hq.eq_one_or_self_of_dvd 2 hdvd with h | h
      · omega
      · exact h2 h.symm
    have hmem : (q : Int) ∈ PRIMES.tail :=
      oddWalk_sound 16383 3 PRIMES.tail PRIMES_walk q hq (by omega) (by omega)
        (by omega)
    exact List.mem_of_mem_tail hmem

set_option maxRecDepth 1000000 in
theorem PRIMES_zip_sorted :
    ((PRIMES.zip PRIMES.tail).all fun q => decide (q.1 < q.2)) = true := by decide

theorem pairwise_lt_of_zip :
    ∀ l : List Int, ((l.zip l.tail).all fun q => decide (q.1 < q.2)) = true →
      l.Pairwise (fun a b => a < b) := by
  intro l
  induction l with
  | nil => intro _; exact List.Pairwise.nil
  | cons a l ih =>
    intro h
    cases l with
    | nil => exact List.pairwise_singleton _ _
    | cons b m =>
      rw [show (a :: b :: m).zip (a :: b :: m).tail = (a, b) :: ((b :: m).zip m)
        from rfl, List.all_cons, Bool.and_eq_true] at h
      obtain ⟨hab, hrest⟩ := h
      have hab2 : a < b := of_decide_eq_true hab
      have hp : (b :: m).Pairwise (fun a b => a < b) := ih hrest
      refine List.Pairwise.cons ?_ hp
      intro x hx
      rcases List.mem_cons.mp hx with rfl | hxm
      · exact hab2
      · exact lt_trans hab2 ((List.pairwise_cons.mp hp).1 x hxm)

/-- The modelled prime list is strictly ascending. -/
theorem PRIMES_sorted : PRIMES.Pairwise (fun a b => a < b) :=
  pairwise_lt_of_zip PRIMES PRIMES_zip_sorted

/-- Exactness of the ascending reduce loop: on a strictly ascending list of
candidate divisors containing every common prime factor of the operands, the
loop divides out exactly the greatest common divisor. -/
theorem reduceGo_gcd :
    ∀ (L : List Int) (n d : Int), (∀ p ∈ L, 2 ≤ p) →
      L.Pairwise (fun a b => a < b) →
      n ≠ 0 → 1 ≤ d → n.natAbs ≤ 32767 →
      (∀ q : Nat, q.Prime → (q : Int) ∣ n → (q : Int) ∣ d → (q : Int) ∈ L) →
      reduceGo 16 L (n, d) =
        (n / (Int.gcd n d : Int), d / (Int.gcd n d : Int)) := by
  intro L
  induction L with
  | nil =>
    intro n d _ _ hn hd _ hcomp
    have hg : Int.gcd n d = 1 := by
      by_contra hne
      obtain ⟨q, hq, hdvd⟩ := Nat.exists_prime_and_dvd hne
      have h1 : (q : Int) ∣ n :=
        dvd_trans (Int.natCast_dvd_natCast.mpr hdvd) Int.gcd_dvd_left
      have h2 : (q : Int) ∣ d :=
        dvd_trans (Int.natCast_dvd_natCast.mpr hdvd) Int.gcd_dvd_right
      exact absurd (hcomp q hq h1 h2) (List.not_mem_nil _)
    show (n, d) = _
    rw [hg]
    push_cast
    rw [Int.ediv_one, Int.ediv_one]
  | cons p ps ih =>
    intro n d hmem hpw hn hd hnab hcomp
    have hp2 : 2 ≤ p := hmem p (List.mem_cons_self p ps)
    obtain ⟨hlt, hpw2⟩ := List.pairwise_cons.mp hpw
    rw [reduceGo_cons]
    have hwa : wrapAbs 16 n = |n| := by
      unfold wrapAbs
      rw [if_neg (by norm_num; omega : n ≠ -(2 ^ (16 - 1)))]
    by_cases hbr : p > wrapAbs 16 n ∨ p > d
    · rw [if_pos hbr]
      have hg : Int.gcd n d = 1 := by
        by_contra hne
        obtain ⟨q, hq, hdvd⟩ := Nat.exists_prime_and_dvd hne
        have h1 : (q : Int) ∣ n :=
          dvd_trans (Int.natCast_dvd_natCast.mpr hdvd) Int.gcd_dvd_left
        have h2 : (q : Int) ∣ d :=
          dvd_trans (Int.natCast_dvd_natCast.mpr hdvd) Int.gcd_dvd_right
        have hmem2 : (q : Int) ∈ p :: ps := hcomp q hq h1 h2
        have hqn : q ≤ n.natAbs := by
          have hdv : ((q : Int)).natAbs ∣ n.natAbs := Int.natAbs_dvd_natAbs.mpr h1
          rw [Int.natAbs_ofNat] at hdv
          exact Nat.le_of_dvd (Int.natAbs_pos.mpr hn) hdv
        have hqd : (q : Int) ≤ d := Int.le_of_dvd (by omega) h2
        have hge : p ≤ (q : Int) := by
          rcases List.mem_cons.mp hmem2 with he | hm
          · exact le_of_eq he.symm
          · exact le_of_lt (hlt _ hm)
        rw [hwa] at hbr
        rcases hbr with hb | hb
        · rw [Int.abs_eq_natAbs] at hb
          omega
        · omega
      show (n, d) = _
      rw [hg]
      push_cast
      rw [Int.ediv_one, Int.ediv_one]
    · rw [if_neg hbr]
      obtain ⟨k, hk1, hk2, hk3, hk4⟩ :=
        divOut_dvd p hp2 (d.natAbs + 1) n d hd (by omega)
      rw [hk3]
      have hppos : (0 : Int) < p := by omega
      have hPpos : (0 : Int) < p ^ k := pow_pos hppos k
      have hP0 : (p ^ k : Int) ≠ 0 := ne_of_gt hPpos
      obtain ⟨m, hm⟩ := hk1
      obtain ⟨c, hc⟩ := hk2
      have hnP : n / p ^ k = m := by rw [hm, Int.mul_ediv_cancel_left _ hP0]
      have hdP : d / p ^ k = c := by rw [hc, Int.mul_ediv_cancel_left _ hP0]
      have hm0 : m ≠ 0 := by
        intro h0
        rw [h0, mul_zero] at hm
        exact hn hm
      have hc1 : 1 ≤ c := by nlinarith [hc.symm ▸ hd]
      have hmab : m.natAbs ≤ 32767 := by
        have : (n / p ^ k).natAbs ≤ n.natAbs := by
          rw [Int.natAbs_ediv _ _ ⟨m, hm⟩]
          exact Nat.div_le_self _ _
        rw [hnP] at this
        omega
      have hcompP : ∀ q : Nat, q.Prime → (q : Int) ∣ m → (q : Int) ∣ c →
          (q : Int) ∈ ps := by
        intro q hq hqm hqc
        rcases hk4 with hstop | hone
        · rw [hnP, hdP] at hstop
          have hqn : (q : Int) ∣ n := hm ▸ Dvd.dvd.mul_left hqm _
          have hqd : (q : Int) ∣ d := hc ▸ Dvd.dvd.mul_left hqc _
          have hmem2 : (q : Int) ∈ p :: ps := hcomp q hq hqn hqd
          rcases List.mem_cons.mp hmem2 with he | hm2
          · exfalso
            exact hstop ⟨he ▸ hqm, he ▸ hqc⟩
          · exact hm2
        · exfalso
          rw [hdP] at hone
          rw [hone] at hqc
          have hle1 : (q : Int) ≤ 1 := Int.le_of_dvd one_pos hqc
          have := hq.two_le
          omega
      have hrec := ih m c (fun r hr => hmem r (List.mem_cons_of_mem _ hr)) hpw2
        hm0 hc1 hmab hcompP
      rw [hnP, hdP, hrec]
      -- relate gcd (n / p^k) (d / p^k) to gcd n d
      have hPG : (p ^ k : Int) ∣ (Int.gcd n d : Int) :=
        Int.dvd_gcd ⟨m, hm⟩ ⟨c, hc⟩
      obtain ⟨H, hH⟩ := hPG
      have hgpos : 0 < Int.gcd n d := by
        rcases Nat.eq_zero_or_pos (Int.gcd n d) with h0 | h0
        · exact absurd (Int.gcd_eq_zero_iff.mp h0).1 hn
        · exact h0
      have hHpos : (0 : Int) < H := by
        by_contra hcon
        push_neg at hcon
        have h1 : (Int.gcd n d : Int) ≤ 0 := by nlinarith
        have h2 : (0 : Int) < (Int.gcd n d : Int) := by exact_mod_cast hgpos
        omega
      have hgq : (Int.gcd m c : Int) = H := by
        have e1 : Int.gcd (n / p ^ k) (d / p ^ k) =
            Int.gcd n d / (p ^ k : Int).natAbs :=
          Int.gcd_div ⟨m, hm⟩ ⟨c, hc⟩
        rw [hnP, hdP] at e1
        rw [e1, Int.natCast_div, Int.natAbs_of_nonneg (le_of_lt hPpos), hH,
          Int.mul_ediv_cancel_left _ hP0]
      have hnum : m / (Int.gcd m c : Int) = n / (Int.gcd n d : Int) := by
        rw [hgq, hH, hm, Int.mul_ediv_mul_of_pos _ _ hPpos]
      have hden : c / (Int.gcd m c : Int) = d / (Int.gcd n d : Int) := by
        rw [hgq, hH, hc, Int.mul_ediv_mul_of_pos _ _ hPpos]
      rw [hnum, hden]

/-- `reduce` computes exact lowest terms for bounded operands: the result is
the input pair divided by its greatest common divisor. -/
theorem reduceCode_gcd (n d : Int) (hd1 : 1 ≤ d) (hd2 : d ≤ 32767)
    (hn : n.natAbs ≤ 32767) :
    reduceCode 16 n d = (n / (Int.gcd n d : Int), d / (Int.gcd n d : Int)) := by
  unfold reduceCode
  by_cases h0 : n = 0
  · rw [if_pos h0]
    subst h0
    rw [Int.gcd_zero_left, Int.natAbs_of_nonneg (by omega), Int.zero_ediv,
      Int.ediv_self (by omega)]
  · rw [if_neg h0]
    by_cases h1 : d > 1
    · rw [if_pos h1]
      refine reduceGo_gcd PRIMES n d PRIMES_two_le PRIMES_sorted h0 hd1 hn ?_
      intro q hq hqn hqd
      refine PRIMES_complete q hq ?_
      have hqle : (q : Int) ≤ d := Int.le_of_dvd (by omega) hqd
      omega
    · rw [if_neg h1]
      have hdo : d = 1 := by omega
      subst hdo
      have hg1 : Int.gcd n 1 = 1 := Nat.gcd_one_right n.natAbs
      rw [hg1]
      push_cast
      rw [Int.ediv_one]

/-- C5 (amended): `Fraction::new(n, d)` equals `Fraction::new(k*n, k*d)`
whenever the denominator is positive, the scale factor `k` is positive, the
scaled denominator stays within `(0, 32767]`, and the scaled numerator stays
within the symmetric range `[-32767, 32767]` (so the `-32768` clamp in
`Fraction::new` is not hit). -/
theorem fraction_new_scale_amended (n d k : Int)
    (hd1 : 1 ≤ d) (hk : 1 ≤ k) (hkd : k * d ≤ 32767)
    (hkn1 : -32767 ≤ k * n) (hkn2 : k * n ≤ 32767) :
    Fraction.new n d = Fraction.new (k * n) (k * d) := by
  have hd2 : d ≤ 32767 := by nlinarith
  have hkd1 : 1 ≤ k * d := by nlinarith
  have hnab : n.natAbs ≤ 32767 := by
    have h1 : n.natAbs ≤ (k * n).natAbs := by
      rw [Int.natAbs_mul]
      exact Nat.le_mul_of_pos_left _ (by omega)
    have h2 : (k * n).natAbs ≤ 32767 := by omega
    omega
  have hn1 : -32767 ≤ n := by omega
  have hmax1 : max n (-32767) = n := max_eq_left hn1
  have hmax2 : max (k * n) (-32767) = k * n := max_eq_left hkn1
  rw [fraction_new_eq, fraction_new_eq, hmax1, hmax2,
    new_maybe_reduced_nonneg _ _ (by omega), new_maybe_reduced_nonneg _ _ (by omega)]
  show (⟨(reduceCode 16 n d).1, (reduceCode 16 n d).2⟩ : Fraction) =
    ⟨(reduceCode 16 (k * n) (k * d)).1, (reduceCode 16 (k * n) (k * d)).2⟩
  rw [reduceCode_gcd n d hd1 hd2 hnab,
    reduceCode_gcd (k * n) (k * d) hkd1 hkd (by omega)]
  have hgk : (Int.gcd (k * n) (k * d) : Int) = k * (Int.gcd n d : Int) := by
    rw [Int.gcd_mul_left, Nat.cast_mul,
      Int.natAbs_of_nonneg (by omega : (0 : Int) ≤ k)]
  rw [hgk, Int.mul_ediv_mul_of_pos _ _ (by omega : (0 : Int) < k),
    Int.mul_ediv_mul_of_pos _ _ (by omega : (0 : Int) < k)]

theorem fraction_new_scale_amended_witness :
    Fraction.new 2 4 = Fraction.new 6 12 ∧ Fraction.new 2 4 = ⟨1, 2⟩ :=
  ⟨fraction_new_scale_amended 2 4 3 (by norm_num) (by norm_num) (by norm_num)
      (by norm_num) (by norm_num),
    by decide⟩

theorem wrap32_eq_self (x : Int) (h1 : -(2 ^ 31) ≤ x) (h2 : x ≤ 2 ^ 31 - 1) :
    wrap32 x = x := by
  unfold wrap32
  have hs : (2 : Int) ^ 32 = 2 ^ 31 + 2 ^ 31 := by norm_num
  have h0 : 0 ≤ x + 2 ^ 31 := by linarith
  have hlt : x + 2 ^ 31 < 2 ^ 32 := by rw [hs]; linarith
  rw [Int.emod_eq_of_lt h0 hlt]
  ring

theorem scaled_tdiv_exact (s h v : Int) (hs : 0 < s) (h0 : 0 ≤ h) (hh : h < s)
    (hv : 0 ≤ v) : (v * s + h).tdiv s = v := by
  rw [Int.tdiv_eq_ediv (by positivity) (le_of_lt hs)]
  rw [show v * s + h = h + s * v by ring, Int.add_mul_ediv_left h v (ne_of_gt hs),
    Int.ediv_eq_zero_of_lt h0 hh, zero_add]

theorem scaled_tdiv_neg (s h v : Int) (hs : 0 < s) (h0 : 0 < h) (hh : h < s)
    (hv : v < 0) : (v * s + h).tdiv s = v + 1 := by
  have hrw : v * s + h = -((-(v + 1)) * s + (s - h)) := by ring
  rw [hrw, Int.neg_tdiv,
    scaled_tdiv_exact s (s - h) (-(v + 1)) hs (by linarith) (by linarith) (by linarith)]
  ring

/-! ## C1: round-trip of `new`/`get` on the three unit types -/

/-- C1, counterexample: the claim asserts `T::new(v).get() == v` for every
integer whose product with the scale is representable; at `v = -1` (product
`-4`, representable) `Px::new(-1).get()` evaluates to `0`, not `-1`, because
`(raw + scale/2) / scale` truncates toward zero. -/
theorem px_roundtrip_fails_at_neg_one : (Px.new (-1)).get = 0 ∧ (0 : Int) ≠ -1 := by
  decide

/-- C1, amended: `T::new(v).get() == v` holds for every nonnegative `v` with
`v * scale + scale/2` representable in the backing integer (for `UPx`, every
`v` with `4v` representable); for negative in-range `v`, the round-half-up
accessor of both signed types `Px` and `Lp` returns `v + 1` instead. -/
theorem unit_roundtrip_amended (v l w m : Int) (u : Nat)
    (hv0 : 0 ≤ v) (hv1 : 4 * v ≤ 2 ^ 31 - 1)
    (hu : 4 * u ≤ 2 ^ 32 - 1)
    (hl0 : 0 ≤ l) (hl1 : 1905 * l + 952 ≤ 2 ^ 31 - 1)
    (hw0 : w < 0) (hw1 : -(2 ^ 31) ≤ 4 * w)
    (hm0 : m < 0) (hm1 : -(2 ^ 31) ≤ 1905 * m) :
    (Px.new v).get = v ∧ (UPx.new u).get = u ∧ (Lp.new l).get = l ∧
      (Px.new w).get = w + 1 ∧ (Lp.new m).get = m + 1 := by
  have p4 : (0 : Int) < 4 := by norm_num
  have p1905 : (0 : Int) < 1905 := by norm_num
  refine ⟨?_, ?_, ?_, ?_, ?_⟩
  · show (wrap32 (wrap32 (v * 4) + 2)).tdiv 4 = v
    rw [wrap32_eq_self (v * 4) (by linarith) (by omega),
      wrap32_eq_self (v * 4 + 2) (by linarith) (by omega)]
    exact scaled_tdiv_exact 4 2 v p4 (by norm_num) (by norm_num) hv0
  · show (u * 4 % 2 ^ 32 + 2) % 2 ^ 32 / 4 = u
    have h1 : u * 4 % 2 ^ 32 = u * 4 := Nat.mod_eq_of_lt (by omega)
    rw [h1]
    have h2 : (u * 4 + 2) % 2 ^ 32 = u * 4 + 2 := Nat.mod_eq_of_lt (by omega)
    rw [h2]
    omega
  · show (wrap32 (wrap32 (l * 1905) + 952)).tdiv 1905 = l
    rw [wrap32_eq_self (l * 1905) (by linarith) (by linarith),
      wrap32_eq_self (l * 1905 + 952) (by linarith) (by linarith)]
    exact scaled_tdiv_exact 1905 952 l p1905 (by norm_num) (by norm_num) hl0
  · show (wrap32 (wrap32 (w * 4) + 2)).tdiv 4 = w + 1
    rw [wrap32_eq_self (w * 4) (by linarith) (by linarith),
      wrap32_eq_self (w * 4 + 2) (by linarith) (by linarith)]
    exact scaled_tdiv_neg 4 2 w p4 (by norm_num) (by norm_num) hw0
  · show (wrap32 (wrap32 (m * 1905) + 952)).tdiv 1905 = m + 1
    rw [wrap32_eq_self (m * 1905) (by linarith) (by linarith),
      wrap32_eq_self (m * 1905 + 952) (by linarith) (by linarith)]
    exact scaled_tdiv_neg 1905 952 m p1905 (by norm_num) (by norm_num) hm0

/-- C1, witness for the amended round-trip at concrete inputs. -/
theorem unit_roundtrip_amended_witness :
    (Px.new 5).get = 5 ∧ (UPx.new 7).get = 7 ∧ (Lp.new 9).get = 9 ∧
      (Px.new (-3)).get = -3 + 1 ∧ (Lp.new (-2)).get = -2 + 1 :=
  unit_roundtrip_amended 5 9 (-3) (-2) 7 (by norm_num) (by norm_num)
    (by norm_num) (by norm_num) (by norm_num) (by norm_num) (by norm_num)
    (by norm_num) (by norm_num)

/-! ## C4: the documented lossy fallback of `Fraction` addition -/

set_option maxRecDepth 1000000 in
/-- C4: adding `Fraction(1, 32719)` and `Fraction(1, 32749)` yields exactly
`Fraction(2, 32749)`: the widened sum `65468/1071514531` cannot be reduced
into the compact 16-bit form, and the descending prime hunt settles on
dividing by 32719, the quotient pair with the smallest combined remainder
reachable before the search's break conditions stop it. -/
theorem fraction_add_lossy_fallback :
    Fraction.add (Fraction.new 1 32719) (Fraction.new 1 32749) =
      Fraction.new 2 32749 ∧
      Fraction.new 2 32749 = ⟨2, 32749⟩ := by
  constructor
  · decide
  · decide

/-! ## C7: one logical inch at device scale one -/

/-- C7: `Lp::inches(1)` converted to device pixels at scale one is exactly
`Px::new(96)` (raw 384), and converting that result back with
`Px::into_lp` at the same scale returns exactly `Lp::inches(1)`. -/
theorem lp_inch_px_roundtrip :
    (Lp.inches 1).intoPx Fraction.ONE = Px.new 96 ∧
      ((Lp.inches 1).intoPx Fraction.ONE).intoLp Fraction.ONE = Lp.inches 1 := by
  decide

/-! ## C10: totality / saturation of unit arithmetic -/

/-- C10, counterexample: plain `Add for Px` does not saturate on overflow;
`Px::MAX + Px::MAX` wraps to raw `-2` (release semantics; a debug build
panics), which differs from the saturating result. -/
theorem px_add_overflow_wraps :
    Px.add Px.MAX Px.MAX = ⟨-2⟩ ∧
      Px.saturating_add Px.MAX Px.MAX = Px.MAX ∧
      Px.add Px.MAX Px.MAX ≠ Px.saturating_add Px.MAX Px.MAX := by
  decide

/-- C10, amended: the plain operators are raw wrapping arithmetic — they
agree with exact integer arithmetic precisely when the mathematical result
is representable, and wrap (release) or panic (debug) otherwise; among the
dedicated methods, `saturating_add` and `saturating_sub` do clamp the raw
result to `MIN`/`MAX`, but `saturating_mul` saturates the raw product before
dividing the scale back out (`Px::MAX.saturating_mul(Px::MAX)` is raw
`(2^31 - 1)/4 = 536870911`, not `MAX`), and `saturating_div` re-scales its
saturated quotient through `new`'s wrapping multiply
(`Px::MAX.saturating_div(Px(1))` wraps to raw `-4`) and panics on a zero
divisor (modelled as `none`). -/
theorem saturating_ops_amended (a b : Int) (x y : Nat)
    (ha1 : -(2 ^ 31) ≤ a) (ha2 : a ≤ 2 ^ 31 - 1)
    (hb1 : -(2 ^ 31) ≤ b) (hb2 : b ≤ 2 ^ 31 - 1)
    (hx : x ≤ 2 ^ 32 - 1) (hy : y ≤ 2 ^ 32 - 1) :
    (Px.saturating_add ⟨a⟩ ⟨b⟩).raw =
        (if a + b ≤ -(2 ^ 31) then -(2 ^ 31)
          else if a + b ≤ 2 ^ 31 - 1 then a + b else 2 ^ 31 - 1) ∧
      (Px.saturating_sub ⟨a⟩ ⟨b⟩).raw =
        (if a - b ≤ -(2 ^ 31) then -(2 ^ 31)
          else if a - b ≤ 2 ^ 31 - 1 then a - b else 2 ^ 31 - 1) ∧
      (-(2 ^ 31) ≤ a + b → a + b ≤ 2 ^ 31 - 1 → (Px.add ⟨a⟩ ⟨b⟩).raw = a + b) ∧
      (UPx.saturating_add ⟨x⟩ ⟨y⟩).raw = min (2 ^ 32 - 1) (x + y) ∧
      (x + y ≤ 2 ^ 32 - 1 → (UPx.add ⟨x⟩ ⟨y⟩).raw = x + y) ∧
      Px.saturating_mul Px.MAX Px.MAX = ⟨536870911⟩ ∧
      Px.saturating_mul Px.MAX Px.MAX ≠ Px.MAX ∧
      Px.saturating_div Px.MAX ⟨1⟩ = some ⟨-4⟩ ∧
      Px.saturating_div ⟨a⟩ ⟨0⟩ = none := by
  refine ⟨?_, ?_, ?_, rfl, ?_, by decide, by decide, by decide, rfl⟩
  · show max (-(2 ^ 31)) (min (2 ^ 31 - 1) (a + b)) = _
    rcases le_or_lt (a + b) (-(2 ^ 31)) with h | h
    · rw [if_pos h]; omega
    · rw [if_neg (by omega)]
      rcases le_or_lt (a + b) (2 ^ 31 - 1) with h2 | h2
      · rw [if_pos h2]; omega
      · rw [if_neg (by omega)]; omega
  · show max (-(2 ^ 31)) (min (2 ^ 31 - 1) (a - b)) = _
    rcases le_or_lt (a - b) (-(2 ^ 31)) with h | h
    · rw [if_pos h]; omega
    · rw [if_neg (by omega)]
      rcases le_or_lt (a - b) (2 ^ 31 - 1) with h2 | h2
      · rw [if_pos h2]; omega
      · rw [if_neg (by omega)]; omega
  · intro h1 h2
    show wrap32 (a + b) = a + b
    exact wrap32_eq_self _ h1 h2
  · intro h
    show (x + y) % 2 ^ 32 = x + y
    exact Nat.mod_eq_of_lt (by omega)

/-- C10, witness for the amended saturation statement. -/
theorem saturating_ops_amended_witness :
    (Px.saturating_add ⟨3⟩ ⟨4⟩).raw =
        (if (3 : Int) + 4 ≤ -(2 ^ 31) then -(2 ^ 31)
          else if (3 : Int) + 4 ≤ 2 ^ 31 - 1 then 3 + 4 else 2 ^ 31 - 1) ∧
      (Px.saturating_sub ⟨3⟩ ⟨4⟩).raw =
        (if (3 : Int) - 4 ≤ -(2 ^ 31) then -(2 ^ 31)
          else if (3 : Int) - 4 ≤ 2 ^ 31 - 1 then 3 - 4 else 2 ^ 31 - 1) ∧
      (-(2 ^ 31) ≤ (3 : Int) + 4 → (3 : Int) + 4 ≤ 2 ^ 31 - 1 →
        (Px.add ⟨3⟩ ⟨4⟩).raw = 3 + 4) ∧
      (UPx.saturating_add ⟨5⟩ ⟨6⟩).raw = min (2 ^ 32 - 1) (5 + 6) ∧
      (5 + 6 ≤ 2 ^ 32 - 1 → (UPx.add ⟨5⟩ ⟨6⟩).raw = 5 + 6) ∧
      Px.saturating_mul Px.MAX Px.MAX = ⟨536870911⟩ ∧
      Px.saturating_mul Px.MAX Px.MAX ≠ Px.MAX ∧
      Px.saturating_div Px.MAX ⟨1⟩ = some ⟨-4⟩ ∧
      Px.saturating_div ⟨3⟩ ⟨0⟩ = none :=
  saturating_ops_amended 3 4 5 6 (by norm_num) (by norm_num) (by norm_num)
    (by norm_num) (by norm_num) (by norm_num)

theorem huntGo_append_some (l1 l2 : List Int) (n d : Int) :
    ∀ bn bd br bn2 bd2 br2, huntSeg l1 n d bn bd br = some (bn2, bd2, br2) →
      huntGo (l1 ++ l2) n d bn bd br = huntGo l2 n d bn2 bd2 br2 := by
  induction l1 with
  | nil =>
    intro bn bd br bn2 bd2 br2 h
    simp only [huntSeg, Option.some.injEq, Prod.mk.injEq] at h
    obtain ⟨h1, h2, h3⟩ := h
    subst h1; subst h2; subst h3
    rfl
  | cons p ps ih =>
    intro bn bd br bn2 bd2 br2 h
    simp only [huntSeg] at h
    show huntGo (p :: (ps ++ l2)) n d bn bd br = _
    simp only [huntGo]
    by_cases hc : ¬(n ≥ p ∧ d ≥ p)
    · rw [if_pos hc] at h ⊢
      exact ih bn bd br bn2 bd2 br2 h
    · rw [if_neg hc] at h ⊢
      by_cases h1 : n.tdiv p > 32767 ∨ n.tdiv p < -32768
      · rw [if_pos h1] at h; exact absurd h (by simp)
      · rw [if_neg h1] at h ⊢
        by_cases h2 : n.tdiv p < -32767
        · rw [if_pos h2] at h; exact absurd h (by simp)
        · rw [if_neg h2] at h ⊢
          by_cases h3 : d.tdiv p > 32767 ∨ d.tdiv p < -32768
          · rw [if_pos h3] at h; exact absurd h (by simp)
          · rw [if_neg h3] at h ⊢
            by_cases h4 : n.tmod p + d.tmod p < br
            · rw [if_pos h4] at h ⊢
              by_cases h5 : n.tmod p + d.tmod p ≤ 5
              · rw [if_pos h5] at h; exact absurd h (by simp)
              · rw [if_neg h5] at h ⊢
                exact ih _ _ _ bn2 bd2 br2 h
            · rw [if_neg h4] at h ⊢
              exact ih bn bd br bn2 bd2 br2 h

set_option maxRecDepth 1000000 in
theorem hunt_overshoot_eval :
    huntGo PRIMES.reverse 11789639 32749 32767 32767 2147483647 = (14052, 39) := by
  have e1 := (List.take_append_drop 800 PRIMES.reverse).symm
  rw [e1, huntGo_append_some (PRIMES.reverse.take 800) _ _ _ _ _ _ 365 1 954 (by decide)]
  have e2 := (List.take_append_drop 800 (PRIMES.reverse.drop 800)).symm
  rw [List.drop_drop] at e2
  rw [e2, huntGo_append_some ((PRIMES.reverse.drop 800).take 800) _ _ _ _ _ _ 365 1 954 (by decide)]
  have e3 := (List.take_append_drop 800 (PRIMES.reverse.drop (800 + 800))).symm
  rw [List.drop_drop] at e3
  rw [e3, huntGo_append_some ((PRIMES.reverse.drop (800 + 800)).take 800) _ _ _ _ _ _ 365 1 954 (by decide)]
  have e4 := (List.take_append_drop 800 (PRIMES.reverse.drop (800 + (800 + 800)))).symm
  rw [List.drop_drop] at e4
  rw [e4, huntGo_append_some ((PRIMES.reverse.drop (800 + (800 + 800))).take 800) _ _ _ _ _ _ 4336 12 176 (by decide)]
  decide

set_option maxRecDepth 1000000 in
theorem fraction_add_overshoot :
    Fraction.add ⟨-1, 32749⟩ ⟨360, 1⟩ = ⟨14052, 39⟩ := by
  show from32 (add32 (lcdFind ⟨-1, 32749⟩ ⟨360, 1⟩).1 (lcdFind ⟨-1, 32749⟩ ⟨360, 1⟩).2) = _
  have h1 : lcdFind ⟨-1, 32749⟩ ⟨360, 1⟩ =
      (⟨-1, 32749⟩, ⟨11789640, 32749⟩) := by decide
  rw [h1]
  have h2 : add32 ⟨-1, 32749⟩ ⟨11789640, 32749⟩ = ⟨11789639, 32749⟩ := by decide
  rw [h2]
  show from32 ⟨11789639, 32749⟩ = _
  have hr : reduceCode 32 11789639 32749 = (11789639, 32749) := by decide
  unfold from32
  rw [hr]
  norm_num
  constructor
  · rw [hunt_overshoot_eval]
  · rw [hunt_overshoot_eval]

theorem clampTo360_lt (f : Fraction) (h : f.cmp Fraction.ZERO = Ordering.lt) :
    Angle.clampTo360 f = Angle.clampAddGo 200 f := by
  unfold Angle.clampTo360
  rw [h]

theorem clampAddGo_step (fuel : Nat) (f g : Fraction)
    (h : Fraction.add f Angle.THREESIXTY = g)
    (hg : g.cmp Fraction.ZERO = Ordering.gt) :
    Angle.clampAddGo (fuel + 1) f = g := by
  unfold Angle.clampAddGo
  rw [h, if_pos hg]

theorem degreesFraction_frac (f : Fraction) :
    (Angle.degreesFraction f).frac = Angle.clampTo360 f := rfl

set_option maxRecDepth 1000000 in
theorem angle_degreesFraction_overshoot :
    (Angle.degreesFraction ⟨-1, 32749⟩).frac = ⟨14052, 39⟩ := by
  rw [degreesFraction_frac]
  have hlt : Fraction.cmp ⟨-1, 32749⟩ Fraction.ZERO = Ordering.lt := by decide
  rw [clampTo360_lt _ hlt]
  rw [show (200 : Nat) = 199 + 1 from rfl]
  have hgt : Fraction.cmp ⟨14052, 39⟩ Fraction.ZERO = Ordering.gt := by decide
  rw [clampAddGo_step 199 _ _ fraction_add_overshoot hgt]
/-! ## C2: the `Angle` normalization invariant -/

theorem degreesGoNeg_bounds (f : Nat) :
    ∀ d : Int, 0 ≤ d + 360 * f → d ≤ 359 →
      0 ≤ degreesGoNeg f d ∧ degreesGoNeg f d ≤ 359 := by
  induction f with
  | zero =>
    intro d h1 h2
    unfold degreesGoNeg
    omega
  | succ n ih =>
    intro d h1 h2
    unfold degreesGoNeg
    by_cases hd : d < 0
    · rw [if_pos hd]
      exact ih (d + 360) (by push_cast at h1 ⊢; omega) (by omega)
    · rw [if_neg hd]
      omega

theorem degreesGoPos_bounds (f : Nat) :
    ∀ d : Int, d ≤ 360 * f + 360 → 0 ≤ d →
      0 ≤ degreesGoPos f d ∧ degreesGoPos f d ≤ 360 := by
  induction f with
  | zero =>
    intro d h1 h2
    unfold degreesGoPos
    omega
  | succ n ih =>
    intro d h1 h2
    unfold degreesGoPos
    by_cases hd : d > 360
    · rw [if_pos hd]
      exact ih (d - 360) (by push_cast at h1 ⊢; omega) (by omega)
    · rw [if_neg hd]
      omega

/-- C2, counterexample: `Angle::degrees(360)` stores exactly 360 degrees
(the clamp loop only subtracts while the value is strictly greater than
360), so a reachable `Angle` does store 360, contradicting the half-open
range `[0, 360)`. -/
theorem angle_degrees_360_reachable :
    (Angle.degrees 360).frac = ⟨360, 1⟩ ∧ ¬((360 : Int) < 360) := by
  decide

set_option maxRecDepth 1000000 in
/-- C2, amended: after `Angle::degrees(d)` for any `i16` input the stored
value is a whole number of degrees in the closed range `[0, 360]`, with 360
itself reachable.  The `Fraction`-based constructors and operators
re-normalize through `clamp_to_360`, which guarantees a nonnegative result
but not the 360 upper bound: when the renormalizing addition takes the
lossy reduction path, the stored value can exceed 360 — for example
`Angle::degrees_fraction(-1/32749)` stores `14052/39 ≈ 360.31`. -/
theorem angle_degrees_amended (d : Int) (h1 : -32768 ≤ d) (h2 : d ≤ 32767) :
    (0 ≤ (Angle.degrees d).frac.num ∧ (Angle.degrees d).frac.num ≤ 360 ∧
      (Angle.degrees d).frac.den = 1) ∧
      (Angle.degreesFraction ⟨-1, 32749⟩).frac = ⟨14052, 39⟩ := by
  constructor
  · have hfrac : (Angle.degrees d).frac =
        Fraction.new_whole (if d < 0 then degreesGoNeg 200 d else degreesGoPos 200 d) := rfl
    rw [hfrac]
    unfold Fraction.new_whole
    by_cases hd : d < 0
    · rw [if_pos hd]
      have h := degreesGoNeg_bounds 200 d (by omega) (by omega)
      exact ⟨h.1, (by omega : degreesGoNeg 200 d ≤ 360), rfl⟩
    · rw [if_neg hd]
      have h := degreesGoPos_bounds 200 d (by omega) (by omega)
      exact ⟨h.1, h.2, rfl⟩
  · exact angle_degreesFraction_overshoot

/-- C2, witness: the amended invariant applied at `d = -721`. -/
theorem angle_degrees_amended_witness :
    (0 ≤ (Angle.degrees (-721)).frac.num ∧ (Angle.degrees (-721)).frac.num ≤ 360 ∧
      (Angle.degrees (-721)).frac.den = 1) ∧
      (Angle.degreesFraction ⟨-1, 32749⟩).frac = ⟨14052, 39⟩ :=
  angle_degrees_amended (-721) (by norm_num) (by norm_num)

/-! ## C3 counterexample: a zero denominator is constructible -/

/-- C3, counterexample: `Fraction::new(1, 0)` (and likewise the inverse of
zero) produces a stored denominator of 0, violating `denominator >= 1`:
`reduce` only rewrites the denominator when the numerator is zero or the
denominator exceeds 1. -/
theorem fraction_zero_denominator_reachable :
    (Fraction.new 1 0).den = 0 ∧ (Fraction.inverse Fraction.ZERO).den = 0 ∧
      ¬(1 ≤ (0 : Int)) := by
  decide

/-! ## C5 counterexample: the `-32768` numerator clamp -/

/-- C5, counterexample: with `n = -16384`, `d = 1`, `k = 2` both `k*n =
-32768` and `k*d = 2` are representable in `i16`, yet `Fraction::new`
clamps the numerator to `-i16::MAX`, so `Fraction::new(-32768, 2)` is
`-32767/2` and differs from `Fraction::new(-16384, 1)`. -/
theorem fraction_new_scale_clamp_counterexample :
    Fraction.new (-16384) 1 = ⟨-16384, 1⟩ ∧
      Fraction.new (2 * -16384) (2 * 1) = ⟨-32767, 2⟩ ∧
      Fraction.new (-16384) 1 ≠ Fraction.new (2 * -16384) (2 * 1) := by
  decide

/-! ## C6 counterexample: equal negative numerators compare inverted -/

/-- C6, counterexample: `Fraction::new(-1,2)` and `Fraction::new(-1,3)`
have equal numerators, so `Ord for Fraction` takes the inverted-denominator
fast path and returns `Greater`, although mathematically `-1/2 < -1/3`
(cross-multiplied: `(-1)*3 < (-1)*2`). -/
theorem fraction_cmp_negative_fast_path_counterexample :
    Fraction.cmp (Fraction.new (-1) 2) (Fraction.new (-1) 3) = Ordering.gt ∧
      (-1 : Int) * 3 < (-1) * 2 := by
  decide

/-! ## C9: 180 degrees in radians and the quality of 355/113 -/

/-- C9: converting `Angle::degrees(180)` to radians yields exactly the
internal approximation `Fraction::PI = 355/113`, and that rational differs
from the real number pi by no more than `2.67e-7`. -/
theorem angle_180_radians_pi :
    (Angle.degrees 180).intoRadians = Fraction.PI ∧ Fraction.PI = ⟨355, 113⟩ ∧
      |(355 : ℝ) / 113 - Real.pi| ≤ 267 / 10 ^ 9 := by
  refine ⟨by decide, by decide, ?_⟩
  rw [abs_le]
  have h1 := Real.pi_gt_d20
  have h2 := Real.pi_lt_d20
  norm_num at h1 h2 ⊢
  constructor <;> linarith

/-! ## C8: the two integer-times-Fraction operators disagree in direction -/

theorem satMul32_eq_mul (a b : Int) (h1 : -(2 ^ 31) ≤ a * b) (h2 : a * b ≤ 2 ^ 31 - 1) :
    satMul32 a b = a * b := by
  unfold satMul32
  omega

/-- C8: `Mul<Fraction> for i32` computes `v * denominator / numerator`
(dividing `v` by the fraction), `Mul<Fraction> for u32` computes
`u * numerator / denominator`, the two directions agree on all 16-bit
inputs only when the numerator equals the denominator, and consequently
`Lp::into_px` at device scale 2 divides by 2: one inch lands at raw 192
(48 quarter-pixels) instead of `Px::new(192)` (raw 768). -/
theorem int_fraction_mul_directions :
    (∀ (v : Int) (f : Fraction), f.num ≠ 0 → -(2 ^ 31) ≤ v * f.den →
        v * f.den ≤ 2 ^ 31 - 1 → i32MulFraction v f = (v * f.den).tdiv f.num) ∧
      (∀ (u : Nat) (f : Fraction), 0 ≤ f.num → 0 ≤ f.den →
        u * f.num.toNat ≤ 2 ^ 32 - 1 →
        u32MulFraction u f = u * f.num.toNat / f.den.toNat) ∧
      (∀ f : Fraction, 0 < f.num → f.num ≤ 32767 → 0 < f.den → f.den ≤ 32767 →
        ((∀ u : Nat, u ≤ 32767 →
            u32MulFraction u f = (i32MulFraction (u : Int) f).toNat) ↔
          f.num = f.den)) ∧
      (Lp.inches 1).intoPx (Fraction.new_whole 2) = ⟨192⟩ ∧ Px.new 192 = ⟨768⟩ := by
  have hu32 : ∀ (u : Nat) (f : Fraction), 0 ≤ f.num → 0 ≤ f.den →
      u * f.num.toNat ≤ 2 ^ 32 - 1 →
      u32MulFraction u f = u * f.num.toNat / f.den.toNat := by
    intro u f hn hd hb
    unfold u32MulFraction
    rw [if_pos ⟨hn, hd⟩, min_eq_right hb]
  have hi32 : ∀ (v : Int) (f : Fraction), -(2 ^ 31) ≤ v * f.den →
      v * f.den ≤ 2 ^ 31 - 1 → i32MulFraction v f = (v * f.den).tdiv f.num := by
    intro v f h1 h2
    unfold i32MulFraction
    rw [satMul32_eq_mul _ _ h1 h2]
  refine ⟨fun v f _ h1 h2 => hi32 v f h1 h2, hu32, ?_, by decide, by decide⟩
  intro f hn1 hn2 hd1 hd2
  have hNpos : 0 < f.num.toNat := by omega
  have hDpos : 0 < f.den.toNat := by omega
  have hcast : ∀ u : Nat, u ≤ 32767 →
      (i32MulFraction (u : Int) f).toNat = u * f.den.toNat / f.num.toNat := by
    intro u hu
    have h0 : 0 ≤ (u : Int) * f.den := mul_nonneg (Int.natCast_nonneg u) hd1.le
    have hub : (u : Int) * f.den ≤ 2 ^ 31 - 1 := by
      have hc : (u : Int) ≤ 32767 := by exact_mod_cast hu
      nlinarith
    rw [hi32 (u : Int) f (by linarith) hub]
    rw [Int.tdiv_eq_ediv h0 (le_of_lt hn1)]
    rw [show (u : Int) * f.den = ((u * f.den.toNat : Nat) : Int) by
      push_cast [Int.toNat_of_nonneg (le_of_lt hd1)]; ring]
    rw [show f.num = ((f.num.toNat : Nat) : Int) from (Int.toNat_of_nonneg (le_of_lt hn1)).symm]
    rw [← Int.natCast_div, Int.toNat_natCast, Int.toNat_natCast]
  have hNle : f.num.toNat ≤ 32767 := by omega
  have hDle : f.den.toNat ≤ 32767 := by omega
  have hbound : ∀ u : Nat, u ≤ 32767 → u * f.num.toNat ≤ 2 ^ 32 - 1 := by
    intro u hu
    calc u * f.num.toNat ≤ 32767 * 32767 := Nat.mul_le_mul hu hNle
      _ ≤ 2 ^ 32 - 1 := by norm_num
  constructor
  · intro hco
    have e1 := hco f.den.toNat (by omega)
    have e2 := hco f.num.toNat (by omega)
    rw [hu32 f.den.toNat f (le_of_lt hn1) (le_of_lt hd1) (hbound _ hDle),
      hcast f.den.toNat (by omega)] at e1
    rw [hu32 f.num.toNat f (le_of_lt hn1) (le_of_lt hd1) (hbound _ hNle),
      hcast f.num.toNat (by omega)] at e2
    rw [Nat.mul_div_cancel_left _ hDpos] at e1
    rw [Nat.mul_div_cancel_left _ hNpos] at e2
    have d1 : f.num.toNat * f.num.toNat ≤ f.den.toNat * f.den.toNat := by
      calc f.num.toNat * f.num.toNat = (f.den.toNat * f.den.toNat / f.num.toNat) * f.num.toNat := by
            rw [← e1]
        _ ≤ f.den.toNat * f.den.toNat := Nat.div_mul_le_self _ _
    have d2 : f.den.toNat * f.den.toNat ≤ f.num.toNat * f.num.toNat := by
      calc f.den.toNat * f.den.toNat = (f.num.toNat * f.num.toNat / f.den.toNat) * f.den.toNat := by
            rw [e2]
        _ ≤ f.num.toNat * f.num.toNat := Nat.div_mul_le_self _ _
    have : f.num.toNat = f.den.toNat := by
      have := Nat.mul_self_inj.mp (le_antisymm d1 d2)
      exact this
    omega
  · intro hnd u hu
    rw [hu32 u f (le_of_lt hn1) (le_of_lt hd1) (hbound u hu), hcast u hu, hnd]

/-- C8, witness: the operator equations applied at concrete inputs. -/
theorem int_fraction_mul_directions_witness :
    i32MulFraction (-7) ⟨3, 4⟩ = ((-7) * 4).tdiv 3 ∧
      u32MulFraction 7 ⟨3, 4⟩ = 7 * (3 : Int).toNat / (4 : Int).toNat ∧
      ((∀ u : Nat, u ≤ 32767 →
          u32MulFraction u ⟨5, 5⟩ = (i32MulFraction (u : Int) ⟨5, 5⟩).toNat) ↔
        (⟨5, 5⟩ : Fraction).num = (⟨5, 5⟩ : Fraction).den) :=
  ⟨int_fraction_mul_directions.1 (-7) ⟨3, 4⟩ (by norm_num) (by norm_num) (by norm_num),
    int_fraction_mul_directions.2.1 7 ⟨3, 4⟩ (by norm_num) (by norm_num) (by decide),
    int_fraction_mul_directions.2.2.1 ⟨5, 5⟩ (by norm_num) (by norm_num) (by norm_num)
      (by norm_num)⟩
